import Mathlib

set_option maxRecDepth 40000

/-!
Verification of the FLEX paging decoder (SDR++ pager_decoder module).

Shallow embedding of the decoder's components, translated from the C++
sources:

* BCHCode.cpp — BCH(31,21,t=2) encoder/decoder over GF(2^5)
* FlexErrorCorrector.cpp — 32-bit word wrapper around the BCH decoder
* FlexGroupHandler.cpp — group registry (register / deliver / cleanup)
* FlexDecoder.cpp — per-sample pipeline and the SYNC1/FIW/SYNC2/DATA
  state handlers
* FlexSynchronizer.cpp — 64-bit sync pattern match and mode decode
* FlexDataCollector.cpp — phase deinterleaving and idle detection
* FlexFrameProcessor.cpp — BIW/AIW/VIW parsing and the phase loop
* parsers/*.cpp — alphanumeric, numeric, tone and binary message parsers

Machine integers are modelled as Nat (with explicit masking where the
C++ code relies on fixed width) and Int where the source uses signed
values such as the -1 sentinel of the Galois index table.
-/

/-! ## BCH(31,21) codec: Galois field tables (BCHCode.cpp)

BCHCode::BCHCode is instantiated by FlexErrorCorrector with
p = x^5 + x^2 + 1, m = 5, n = 31, k = 21, t = 2.
generateGaloisField builds alpha_to_ / index_of_; generatePolynomial
builds the generator polynomial g_ from the cycle sets modulo 31.
The loops are translated below as folds -/

/-- Primitive polynomial coefficients passed by FlexErrorCorrector:
x^5 + x^2 + 1 (p[0]=p[2]=p[5]=1). -/
def pPoly : List Nat := [1, 0, 1, 0, 0, 1]

/-- First loop of BCHCode::generateGaloisField: alpha_to_[0..4] = 2^i,
alpha_to_[5] accumulates the xor of masks at indices where p_[i] is set.
Returns (alpha_to_[0..4], alpha_to_[5], final mask). -/
def gfFirstLoop : List Nat × Nat × Nat :=
  (List.range 5).foldl
    (fun acc i =>
      let tbl := acc.1
      let a5 := acc.2.1
      let mask := acc.2.2
      (tbl ++ [mask], (if pPoly.getD i 0 ≠ 0 then a5 ^^^ mask else a5), mask <<< 1))
    ([], 0, 1)

/-- Second loop of BCHCode::generateGaloisField (i = m_+1 .. n_-1):
alpha_to_[i] is alpha_to_[i-1] shifted left, reduced by alpha_to_[m_]
when the top bit (mask after the shift-back, = 16) is set.
The list holds alpha_to_[0..30]. -/
def alphaToGen : List Nat :=
  let tbl5 := gfFirstLoop.1
  let a5 := gfFirstLoop.2.1
  let mask := gfFirstLoop.2.2 >>> 1
  (List.range 25).foldl
    (fun tbl _ =>
      let prev := tbl.getD (tbl.length - 1) 0
      tbl ++ [if prev ≥ mask then a5 ^^^ ((prev ^^^ mask) <<< 1) else prev <<< 1])
    (tbl5 ++ [a5])

/-- index_of_ as built by generateGaloisField: the inverse of alpha_to_
on 1..31 (index_of_[alpha_to_[i]] = i), with index_of_[0] = -1. -/
def indexOfGen (x : Nat) : Int :=
  match (List.range 31).find? (fun i => alphaToGen.getD i 0 == x) with
  | some i => (i : Int)
  | none => -1

/-- alpha_to_[0..30] packed into one Nat, 5 bits per entry (a fast,
kernel-friendly image of alphaToGen; theorem alphaAt_gen ties the two). -/
def alphaBits : Nat := 26123046934389750782758618732681130701236736065

/-- Table lookup alpha_to_[i]. -/
def alphaAt (i : Nat) : Nat := (alphaBits >>> (5 * i)) &&& 31

/-- index_of_[1..31] packed into one Nat, 5 bits per entry. -/
def indexOfBits : Nat := 719976087585702537242947323940304841317326324736

/-- Table lookup index_of_[x] (with the -1 sentinel at 0, as in
generateGaloisField; x ranges over field elements 0..31). -/
def index_of (x : Nat) : Int :=
  if x == 0 || x > 31 then -1 else ((indexOfBits >>> (5 * x)) &&& 31 : Nat)

/-! ### Generator polynomial (BCHCode::generatePolynomial) -/

/-- Doubling orbit of s modulo 31: the do-while that fills cycle[jj][..],
appending cycle[ii] = 2*cycle[ii-1] mod n until the next doubling would
return to the representative. -/
def cycleOfAux (s : Nat) : Nat → Nat → List Nat
  | 0, _ => []
  | fuel + 1, cur =>
    let next := cur * 2 % 31
    next :: (if next * 2 % 31 == s then [] else cycleOfAux s fuel next)

/-- Cycle set with representative s. -/
def cycleOf (s : Nat) : List Nat :=
  s :: (if s * 2 % 31 == s then [] else cycleOfAux s 31 s)

/-- Outer do-while of generatePolynomial: repeatedly pick the smallest
ll >= 1 not contained in an earlier cycle set and generate its cycle. -/
def cycleSetsAux : Nat → List (List Nat) → List (List Nat)
  | 0, acc => acc
  | fuel + 1, acc =>
    match (List.range 31).find? (fun l => decide (1 ≤ l) && !(acc.flatten.contains l)) with
    | none => acc
    | some l => cycleSetsAux fuel (acc ++ [cycleOf l])

/-- The cycle sets modulo 31 with representatives >= 1 (cycle[1..nocycles]). -/
def cycleSets : List (List Nat) := cycleSetsAux 31 []

/-- zeros[1..rdncy]: members of every cycle set that contains a root
in 1..2t = 1..4 (the min_[]/zeros[] search of generatePolynomial). -/
def zerosList : List Nat :=
  (cycleSets.filter (fun c => c.any (fun r => decide (1 ≤ r) && decide (r ≤ 4)))).flatten

/-- One step of the generator-polynomial product loop (the ii-th
iteration of lines computing g_[] from zeros[ii]): multiply the current
polynomial by (X + alpha^zero). -/
def gNext (z : Nat) (g : List Nat) : List Nat :=
  let n := g.length
  (List.range (n + 1)).map (fun jj =>
    if jj == n then 1
    else if jj == 0 then alphaAt (((index_of (g.getD 0 0)).toNat + z) % 31)
    else if g.getD jj 0 ≠ 0 then
      g.getD (jj - 1) 0 ^^^ alphaAt (((index_of (g.getD jj 0)).toNat + z) % 31)
    else g.getD (jj - 1) 0)

/-- The generator polynomial g_[0..10], starting from
g(x) = (X + alpha^zeros[1]) and folding gNext over zeros[2..]. -/
def gPolyGen : List Nat :=
  match zerosList with
  | [] => []
  | z1 :: rest => rest.foldl (fun g z => gNext z g) [alphaAt z1, 1]

/-- Bit j of gMask is set iff g_[j] != 0, j = 0..9: exactly the
coefficient tests made by BCHCode::encode (fast literal; theorem
gMask_gen ties it to gPolyGen). -/
def gMask : Nat := 873

/-! ### Encoder (BCHCode::encode)

The in-place encoder runs an LFSR over the data bits i = k-1 .. 0:
feedback = data[i] xor bb[9]; on feedback the register shifts and the
taps g_[j] != 0 are xored, bb[0] = g_[0] and feedback; otherwise it just
shifts.  With the register as a 10-bit Nat this is: -/

/-- One LFSR step of BCHCode::encode for data bit b. -/
def encStep (s : Nat) (b : Bool) : Nat :=
  let feedback := b != s.testBit 9
  if feedback then ((s <<< 1) &&& 1023) ^^^ gMask else (s <<< 1) &&& 1023

/-- The parity register bb_[] after feeding data bits 20 down to 0
(the i = k_-1 .. 0 loop of BCHCode::encode). -/
def bchRemainder (d : Nat) : Nat :=
  (List.range 21).reverse.foldl (fun s i => encStep s (d.testBit i)) 0

/-- BCHCode::encode(data): codeword[i] = data[i] for i < 21,
codeword[21+i] = bb_[i]; as a 31-bit value with bit j = codeword[j]. -/
def bchEncode (d : Nat) : Nat := d ||| (bchRemainder d <<< 21)

/-! ### Decoder (BCHCode::decode) -/

/-- Syndrome accumulation loop (j = n_-1 down to 0): xor of
alpha_to_[(i*j) mod 31] over the set bits j of the received word. -/
def syndAux (r i : Nat) : Nat → Nat
  | 0 => if r.testBit 0 then alphaAt 0 else 0
  | j + 1 => (if r.testBit (j + 1) then alphaAt (i * (j + 1) % 31) else 0) ^^^ syndAux r i j

/-- Syndrome s[i] of BCHCode::decode in polynomial form (before the
index_of_ conversion). -/
def syndrome (r i : Nat) : Nat := syndAux r i 30

/-- Chien search loop of BCHCode::decode, iterations i = 1..31: update
reg[1], reg[2], evaluate q and record i mod 31 when q = 0. -/
def chienLoop : Nat → Nat → Int → Int → List Nat → List Nat
  | 0, _, _, _, locs => locs
  | fuel + 1, i, r1, r2, locs =>
    let r1a := if r1 != -1 then (r1 + 1) % 31 else r1
    let q1 := if r1 != -1 then 1 ^^^ alphaAt r1a.toNat else 1
    let r2a := if r2 != -1 then (r2 + 2) % 31 else r2
    let q2 := if r2 != -1 then q1 ^^^ alphaAt r2a.toNat else q1
    chienLoop fuel (i + 1) r1a r2a (if q2 == 0 then locs ++ [i % 31] else locs)

/-- Chien search over i = 1..n with reg seeded from elp[1], elp[2]. -/
def chienSearch (e1 e2 : Int) : List Nat := chienLoop 31 1 e1 e2 []

/-- Error positions flipped by BCHCode::decode, as a function of the four
syndromes (in polynomial form).  Returns the xor-mask of flipped
positions (received[loc] ^= 1 toggles), or none when retval = 1:

* all syndromes zero: no error, nothing flipped, retval 0;
* s[1] != -1 and s[3] = 3 s[1] (index form): single error at s[1];
* s[1] != -1 otherwise: degree-2 locator elp from aux =
  alpha^(3 s[1]) xor alpha^(s[3]), Chien search, success iff exactly two
  roots, which are flipped;
* s[1] = -1, s[2] != -1: retval 1;
* otherwise the code falls through with retval 0 and no correction. -/
def flipsFromSynd (sp1 sp2 sp3 sp4 : Nat) : Option Nat :=
  if sp1 == 0 && sp2 == 0 && sp3 == 0 && sp4 == 0 then some 0
  else
    let s1 := index_of sp1
    let s2 := index_of sp2
    let s3i := index_of sp3
    if s1 != -1 then
      let s3 := s1 * 3 % 31
      if s3i == s3 then some (1 <<< s1.toNat)
      else
        let aux := if s3i != -1 then alphaAt s3.toNat ^^^ alphaAt s3i.toNat else alphaAt s3.toNat
        let e1 := (s2 - index_of aux + 31) % 31
        let e2 := (s1 - index_of aux + 31) % 31
        let locs := chienSearch e1 e2
        if locs.length == 2 then some ((1 <<< locs.getD 0 0) ^^^ (1 <<< locs.getD 1 0)) else none
    else if s2 != -1 then none
    else some 0

/-- BCHCode::decode: some corrected-word when retval = 0, none when
retval = 1.  The received word is changed exactly by the flip mask. -/
def bchDecode (r : Nat) : Option Nat :=
  (flipsFromSynd (syndrome r 1) (syndrome r 2) (syndrome r 3) (syndrome r 4)).map
    (fun m => r ^^^ m)

/-- FlexErrorCorrector::countBits / FlexSynchronizer::countBitDifferences
population count (the portable bit-parallel fallback, on uint32). -/
def countBits32 (w : Nat) : Nat :=
  let n1 := (w >>> 1) &&& 0x77777777
  let d1 := w - n1
  let n2 := (n1 >>> 1) &&& 0x77777777
  let d2 := d1 - n2
  let n3 := (n2 >>> 1) &&& 0x77777777
  let d3 := d2 - n3
  let d4 := (d3 + (d3 >>> 4)) &&& 0x0F0F0F0F
  ((d4 * 0x01010101) % 4294967296) >>> 24

/-- Helper: bchEncode in xor form (valid for 21-bit data, see
bchEncode_eq_xor). -/
def encodeX (d : Nat) : Nat := d ^^^ (bchRemainder d <<< 21)

/-! ## FlexErrorCorrector (FlexErrorCorrector.cpp)

fixErrors converts the 32-bit word into the 31-coefficient array read
MSB-first (received[i] = bit 30-i of data), runs BCHCode::decode, and on
success packs the corrected coefficients back (corrected has bit 30-i =
received[i]). -/

/-- The coefficient array of FlexErrorCorrector::fixErrors as a 31-bit
value whose bit j is received[j] = bit (30-j) of the input word. -/
def toReceived (data : Nat) : Nat :=
  (List.range 31).foldl
    (fun acc i => if data.testBit (30 - i) then acc ||| (1 <<< i) else acc) 0

/-- Packing the corrected coefficients back into a word (the
corrected_data loop): bit (30-i) of the result is received[i]. -/
def fromReceived (r : Nat) : Nat :=
  (List.range 31).foldl
    (fun acc i => if r.testBit i then acc ||| (1 <<< (30 - i)) else acc) 0

/-- FlexErrorCorrector::fixErrors: some corrected-word on success (the
word is replaced), none when the BCH decoder reports uncorrectable. -/
def fixErrors (data : Nat) : Option Nat :=
  (bchDecode (toReceived data)).map fromReceived

/-! ## Group registry (FlexGroupHandler.cpp, FlexGroupHandler.h)

GROUP_BITS = 17 entries; each GroupCapcodeList holds an ordered capcode
list (cap MAX_CAPCODES_PER_GROUP = 1000) and signed target_frame /
target_cycle initialised to -1. -/

/-- GroupCapcodeList (FlexGroupHandler.h). -/
structure GroupEntry where
  capcodes : List Int := []
  target_frame : Int := -1
  target_cycle : Int := -1
deriving Repr, DecidableEq

/-- GroupCapcodeList::hasPendingCapcodes. -/
def hasPendingCapcodes (g : GroupEntry) : Bool :=
  !g.capcodes.isEmpty && decide (0 ≤ g.target_frame)

/-- GroupCapcodeList::clear. -/
def clearedGroup : GroupEntry := {}

/-- FlexGroupHandler::calculateTargetCycle. -/
def calculateTargetCycle (assigned_frame current_cycle current_frame : Nat) : Nat :=
  if assigned_frame > current_frame then current_cycle
  else if current_cycle == 15 then 0
  else current_cycle + 1

/-- FlexGroupHandler::registerCapcodeToGroup.  The registry is the list
of the 17 group entries; returns (success, new registry). -/
def registerCapcodeToGroup (capcode : Int) (vector_word current_cycle current_frame : Nat)
    (groups : List GroupEntry) : Bool × List GroupEntry :=
  let assigned_frame := (vector_word >>> 10) &&& 0x7F
  let group_bit := (vector_word >>> 17) &&& 0x7F
  if group_bit ≥ 17 then (false, groups)
  else
    let g := groups.getD group_bit {}
    if g.capcodes.length ≥ 1000 then (false, groups)
    else
      (true, groups.set group_bit
        { capcodes := g.capcodes ++ [capcode]
          target_frame := (assigned_frame : Int)
          target_cycle := (calculateTargetCycle assigned_frame current_cycle current_frame : Int) })

/-- GroupMessageInfo (FlexGroupHandler.h). -/
structure GroupMessageInfo where
  group_bit : Int := -1
  capcodes : List Int := []
  is_valid : Bool := false
deriving Repr, DecidableEq

/-- FlexGroupHandler::processGroupMessage: deliver and clear the entry
when it has pending capcodes. -/
def processGroupMessage (group_bit : Int) (groups : List GroupEntry) :
    GroupMessageInfo × List GroupEntry :=
  if group_bit < 0 ∨ group_bit ≥ 17 then ({}, groups)
  else
    let g := groups.getD group_bit.toNat {}
    if !hasPendingCapcodes g then ({}, groups)
    else
      ({ group_bit := group_bit, capcodes := g.capcodes, is_valid := true },
        groups.set group_bit.toNat clearedGroup)

/-- FlexGroupHandler::shouldExpireGroup: the reset decision chain run on
one group entry for the current cycle/frame. -/
def shouldExpireGroup (g : GroupEntry) (current_cycle current_frame : Nat) : Bool :=
  if !hasPendingCapcodes g then false
  else if (current_cycle : Int) == g.target_cycle then
    decide (g.target_frame < (current_frame : Int))
  else if current_cycle == 0 then g.target_cycle == 15
  else if current_cycle == 15 && g.target_cycle == 0 then false
  else decide (g.target_cycle < (current_cycle : Int))

/-- Loop body of FlexGroupHandler::checkAndCleanupMissedGroups,
walking the entries in order with their group bit index: groups with
pending capcodes that shouldExpireGroup are pushed onto the missed list
and cleared. -/
def cleanupGo (current_cycle current_frame : Nat) :
    List GroupEntry → Nat → List Nat × List GroupEntry
  | [], _ => ([], [])
  | g :: gs, gb =>
    let rest := cleanupGo current_cycle current_frame gs (gb + 1)
    if hasPendingCapcodes g && shouldExpireGroup g current_cycle current_frame then
      (gb :: rest.1, clearedGroup :: rest.2)
    else (rest.1, g :: rest.2)

/-- FlexGroupHandler::checkAndCleanupMissedGroups: returns the missed
group bits and the updated registry. -/
def checkAndCleanupMissedGroups (current_cycle current_frame : Nat)
    (groups : List GroupEntry) : List Nat × List GroupEntry :=
  cleanupGo current_cycle current_frame groups 0

/-- Reset rule of spec section 4.7, written from the specification text
(for comparison with shouldExpireGroup): reset when
current_cycle = target_cycle and target_frame < current_frame; or
current_cycle = 0 and target_cycle = 15; or target_cycle < current_cycle
-- except that current_cycle = 15 with target_cycle = 0 is skipped. -/
def specResetRule (current_cycle current_frame : Nat) (g : GroupEntry) : Prop :=
  ((current_cycle : Int) = g.target_cycle ∧ g.target_frame < (current_frame : Int)) ∨
  (current_cycle = 0 ∧ g.target_cycle = 15) ∨
  (g.target_cycle < (current_cycle : Int) ∧ ¬(current_cycle = 15 ∧ g.target_cycle = 0))

instance (cc cf : Nat) (g : GroupEntry) : Decidable (specResetRule cc cf g) := by
  unfold specResetRule
  infer_instance

/-! ## FIW state handler (FlexDecoder::handleFIWState)

State machine states of FlexTypes.h. -/

inductive FlexSt where
  | sync1
  | fiw
  | sync2
  | data
deriving Repr, DecidableEq

/-- Nibble-sum checksum of the FIW (handleFIWState): low four nibbles,
the fifth nibble, and bit 20, summed; valid iff the low nibble of the
sum is 0xF. -/
def fiwChecksum (fiw : Nat) : Nat :=
  (fiw &&& 0xF) + ((fiw >>> 4) &&& 0xF) + ((fiw >>> 8) &&& 0xF) +
    ((fiw >>> 12) &&& 0xF) + ((fiw >>> 16) &&& 0xF) + ((fiw >>> 20) &&& 0x1)

/-- Outcome of one handleFIWState call: the updated FIW accumulator and
counter, the next machine state, the registry, the demodulator baud and
the SYNC2 counter. -/
structure FIWOutcome where
  fiw_count : Nat
  fiw_raw : Nat
  next_state : FlexSt
  groups : List GroupEntry
  demod_baud : Nat
  sync2_count : Nat
deriving Repr, DecidableEq

/-- FlexDecoder::handleFIWState, for one symbol while in the FIW state:
increment fiw_count; from bit 16 on shift the symbol bit into fiw_raw
MSB-first; at fiw_count = 48 BCH-correct, validate the checksum, and on
success extract cycle/frame, run the group cleanup scan, set the
demodulator baud to the sync baud and go to SYNC2; otherwise return to
SYNC1 leaving the registry alone. -/
def handleFIWState (fiw_count fiw_raw : Nat) (sym_rectified : Nat) (sync_baud : Nat)
    (groups : List GroupEntry) (demod_baud : Nat) (sync2_count : Nat) : FIWOutcome :=
  let fiw_count' := fiw_count + 1
  let fiw_raw' :=
    if fiw_count' ≥ 16 then
      (fiw_raw >>> 1) ||| (if sym_rectified > 1 then 0x80000000 else 0)
    else fiw_raw
  if fiw_count' == 48 then
    match fixErrors fiw_raw' with
    | some corrected =>
      if fiwChecksum corrected &&& 0xF == 0xF then
        let cycle_no := (corrected >>> 4) &&& 0xF
        let frame_no := (corrected >>> 8) &&& 0x7F
        { fiw_count := fiw_count', fiw_raw := fiw_raw', next_state := FlexSt.sync2
          groups := (checkAndCleanupMissedGroups cycle_no frame_no groups).2
          demod_baud := sync_baud, sync2_count := 0 }
      else
        { fiw_count := fiw_count', fiw_raw := fiw_raw', next_state := FlexSt.sync1
          groups := groups, demod_baud := demod_baud, sync2_count := sync2_count }
    | none =>
      { fiw_count := fiw_count', fiw_raw := fiw_raw', next_state := FlexSt.sync1
        groups := groups, demod_baud := demod_baud, sync2_count := sync2_count }
  else
    { fiw_count := fiw_count', fiw_raw := fiw_raw', next_state := FlexSt.fiw
      groups := groups, demod_baud := demod_baud, sync2_count := sync2_count }

/-! ## Synchronizer (FlexSynchronizer.cpp) -/

/-- FlexSynchronizer::countBitDifferences: population count of a xor b
(the same bit-parallel algorithm as countBits32). -/
def countBitDifferences (a b : Nat) : Nat := countBits32 (a ^^^ b)

/-- SyncInfo (FlexTypes.h), the fields the sync path uses. -/
structure SyncInfoE where
  sync_code : Nat := 0
  baud_rate : Nat := 0
  levels : Nat := 0
  polarity : Bool := false
deriving Repr, DecidableEq

/-- FlexMode (FlexTypes.h). -/
structure FlexModeE where
  sync_code : Nat
  baud_rate : Nat
  levels : Nat
deriving Repr, DecidableEq

/-- FLEX_MODES table (FlexTypes.h). -/
def flexModes : List FlexModeE :=
  [⟨0x870C, 1600, 2⟩, ⟨0xB068, 1600, 4⟩, ⟨0x7B18, 3200, 2⟩, ⟨0xDEA0, 3200, 4⟩,
   ⟨0x4C7C, 3200, 4⟩]

/-- FlexSynchronizer::decodeSyncMode: clear sync_info (keeping the code
and observed polarity), look the code up in FLEX_MODES within Hamming
distance < 4; on a hit fill baud/levels and return true, else return
false leaving baud_rate = levels = 0 (the default assignments are
commented out in the source). -/
def decodeSyncMode (last_polarity : Bool) (sync_code : Nat) : Bool × SyncInfoE :=
  match flexModes.find? (fun m => decide (countBitDifferences m.sync_code sync_code < 4)) with
  | some m =>
    (true, { sync_code := m.sync_code, baud_rate := m.baud_rate, levels := m.levels
             polarity := last_polarity })
  | none => (false, { sync_code := sync_code, polarity := last_polarity })

/-- FlexSynchronizer::checkSyncPattern on a 64-bit buffer: marker =
bits 47..16, codehigh = bits 63..48, codelow = low 16 bits inverted;
accept (returning codehigh) iff both Hamming tests pass. -/
def checkSyncPattern (buffer : Nat) : Nat :=
  let marker := (buffer &&& 0x0000FFFFFFFF0000) >>> 16
  let codehigh := (buffer &&& 0xFFFF000000000000) >>> 48
  let codelow := (buffer ^^^ 0xFFFFFFFFFFFFFFFF) &&& 0xFFFF
  if countBitDifferences marker 0xA6C6AAAA ≥ 4 then 0
  else if countBitDifferences codehigh codelow ≥ 4 then 0
  else codehigh

/-- FlexSynchronizer::processSymbol: shift (1 if symbol < 2 else 0) into
the 64-bit rolling buffer, test the normal then the inverted buffer.
Returns (new buffer, sync code or 0, new last_polarity). -/
def syncProcessSymbol (sync_buffer : Nat) (last_polarity : Bool) (symbol : Nat) :
    Nat × Nat × Bool :=
  let bit := if symbol < 2 then 1 else 0
  let buf := ((sync_buffer <<< 1) ||| bit) &&& 0xFFFFFFFFFFFFFFFF
  let c1 := checkSyncPattern buf
  if c1 != 0 then (buf, c1, false)
  else
    let c2 := checkSyncPattern (buf ^^^ 0xFFFFFFFFFFFFFFFF)
    if c2 != 0 then (buf, c2, true) else (buf, 0, last_polarity)

/-! ## Data collector (FlexDataCollector.cpp) -/

/-- PhaseBuffer (FlexTypes.h): 88 32-bit words and an idle counter. -/
structure PhaseBufE where
  buffer : List Nat := List.replicate 88 0
  idle_count : Nat := 0
deriving Repr, DecidableEq

/-- FlexDataCollector state. -/
structure CollectorE where
  data_bit_counter : Nat := 0
  phase_toggle : Bool := false
  baud_rate : Nat := 1600
  fsk_levels : Nat := 2
  phase_a : PhaseBufE := {}
  phase_b : PhaseBufE := {}
  phase_c : PhaseBufE := {}
  phase_d : PhaseBufE := {}
deriving Repr, DecidableEq

/-- FlexDataCollector::isIdlePattern. -/
def isIdlePattern (w : Nat) : Bool := w == 0 || w == 0xFFFFFFFF

/-- FlexDataCollector::calculateBufferIndex: the deinterleaving index
((counter >> 5) & 0xFFF8) | (counter & 0x0007). -/
def calculateBufferIndex (c : Nat) : Nat := ((c >>> 5) &&& 0xFFF8) ||| (c &&& 0x0007)

/-- Shift a bit into the MSB of a 32-bit phase word
(buffer[idx] = (buffer[idx] >> 1) | (bit ? 0x80000000 : 0)). -/
def shiftWord (w : Nat) (b : Bool) : Nat := (w >>> 1) ||| (if b then 0x80000000 else 0)

/-- FlexDataCollector::updatePhaseBuffers: write A/B and set the toggle,
or write C/D and clear it. -/
def updatePhaseBuffers (st : CollectorE) (bit_a bit_b : Bool) (idx : Nat) : CollectorE :=
  if !st.phase_toggle then
    { st with
      phase_a := { st.phase_a with
        buffer := st.phase_a.buffer.set idx (shiftWord (st.phase_a.buffer.getD idx 0) bit_a) }
      phase_b := { st.phase_b with
        buffer := st.phase_b.buffer.set idx (shiftWord (st.phase_b.buffer.getD idx 0) bit_b) }
      phase_toggle := true }
  else
    { st with
      phase_c := { st.phase_c with
        buffer := st.phase_c.buffer.set idx (shiftWord (st.phase_c.buffer.getD idx 0) bit_a) }
      phase_d := { st.phase_d with
        buffer := st.phase_d.buffer.set idx (shiftWord (st.phase_d.buffer.getD idx 0) bit_b) }
      phase_toggle := false }

/-- FlexDataCollector::checkForIdlePatterns: bump the idle counters of
the pair selected by the CURRENT phase_toggle (the toggle has already
been flipped by updatePhaseBuffers when this runs). -/
def checkForIdlePatterns (st : CollectorE) (idx : Nat) : CollectorE :=
  if !st.phase_toggle then
    let st := if isIdlePattern (st.phase_a.buffer.getD idx 0) then
        { st with phase_a := { st.phase_a with idle_count := st.phase_a.idle_count + 1 } }
      else st
    if isIdlePattern (st.phase_b.buffer.getD idx 0) then
      { st with phase_b := { st.phase_b with idle_count := st.phase_b.idle_count + 1 } }
    else st
  else
    let st := if isIdlePattern (st.phase_c.buffer.getD idx 0) then
        { st with phase_c := { st.phase_c with idle_count := st.phase_c.idle_count + 1 } }
      else st
    if isIdlePattern (st.phase_d.buffer.getD idx 0) then
      { st with phase_d := { st.phase_d with idle_count := st.phase_d.idle_count + 1 } }
    else st

/-- PhaseBuffer::isIdle (idle_count > IDLE_THRESHOLD = 0). -/
def phaseIsIdle (p : PhaseBufE) : Bool := decide (p.idle_count > 0)

/-- FlexDataCollector::areAllActivePhasesIdle. -/
def areAllActivePhasesIdle (st : CollectorE) : Bool :=
  if st.baud_rate == 1600 then
    if st.fsk_levels == 2 then phaseIsIdle st.phase_a
    else phaseIsIdle st.phase_a && phaseIsIdle st.phase_b
  else
    if st.fsk_levels == 2 then phaseIsIdle st.phase_a && phaseIsIdle st.phase_c
    else phaseIsIdle st.phase_a && phaseIsIdle st.phase_b &&
      phaseIsIdle st.phase_c && phaseIsIdle st.phase_d

/-- FlexDataCollector::processSymbol: convert the symbol to bits
(symbolToBits also copies sync levels into fsk_levels), pin the toggle
at 1600 bps, write the buffers, check idle patterns at word boundaries,
advance the bit counter, and report whether all active phases are
idle. -/
def collectorProcessSymbol (st0 : CollectorE) (sym_rectified : Nat) (sync_levels : Nat) :
    Bool × CollectorE :=
  let st := { st0 with fsk_levels := sync_levels }
  let bit_a := decide (sym_rectified > 1)
  let bit_b := if st.fsk_levels == 4 then (sym_rectified == 1 || sym_rectified == 2) else false
  let st := if st.baud_rate == 1600 then { st with phase_toggle := false } else st
  let idx := calculateBufferIndex st.data_bit_counter
  let st := updatePhaseBuffers st bit_a bit_b idx
  let st := if (st.data_bit_counter &&& 0xFF) == 0xFF then checkForIdlePatterns st idx else st
  let st := if st.baud_rate == 1600 || !st.phase_toggle then
      { st with data_bit_counter := st.data_bit_counter + 1 }
    else st
  (areAllActivePhasesIdle st, st)

/-- FlexDataCollector::reset: clear buffers and collection state. -/
def collectorReset (st : CollectorE) : CollectorE :=
  { st with phase_a := {}, phase_b := {}, phase_c := {}, phase_d := {}
            data_bit_counter := 0, phase_toggle := false }

/-! ## Message parsers (parsers/*.cpp)

MessageType values (FlexTypes.h): Secure = 0, ShortInstruction = 1,
Tone = 2, StandardNumeric = 3, SpecialNumeric = 4, Alphanumeric = 5,
Binary = 6, NumberedNumeric = 7.  FragmentFlag is modelled by its
character value: K (Complete), C (Continuation), F (Fragment),
? (Unknown). -/

/-- IMessageParser::calculateFragmentFlag. -/
def calculateFragmentFlag (frag : Nat) (cont : Bool) : Char :=
  if !cont && frag == 3 then 'K'
  else if !cont && frag != 3 then 'C'
  else if cont then 'F'
  else '?'

/-- MessageParseInput (IMessageParser.h), the fields the parsers read;
mtype is the MessageType value. -/
structure ParseInputE where
  mtype : Nat := 2
  long_address : Bool := false
  capcode : Int := 0
  phase_data : List Nat := []
  phase_data_size : Nat := 0
  message_word_start : Nat := 0
  message_length : Nat := 0
  vector_word_index : Nat := 0
  fragment_number : Nat := 0
  continuation_flag : Bool := false
  is_group_message : Bool := false
  group_bit : Int := -1
deriving Repr, DecidableEq

/-- MessageParseResult: success flag, content, error message, fragment
flag, and the group data (group_bit plus the capcode list filled in by
the decoder wrapper). -/
structure ParseResultE where
  success : Bool := false
  content : String := ""
  error_message : String := ""
  fragment_flag : Char := '?'
  group_bit : Int := -1
  group_capcodes : List Int := []
deriving Repr, DecidableEq

/-- IMessageParser::addCharacterSafe: cap at max_sz, escape tab,
newline, carriage return and percent (when two characters still fit),
keep printable ASCII, drop everything else.  The character count the
C++ function returns is ignored by its caller and omitted here. -/
def addCharacterSafe (ch : Nat) (buffer : String) (max_sz : Nat) : String :=
  if buffer.length ≥ max_sz then buffer
  else if ch == 0x09 && decide (buffer.length < max_sz - 1) then buffer ++ "\\t"
  else if ch == 0x0A && decide (buffer.length < max_sz - 1) then buffer ++ "\\n"
  else if ch == 0x0D && decide (buffer.length < max_sz - 1) then buffer ++ "\\r"
  else if ch == 37 && decide (buffer.length < max_sz - 1) then buffer ++ "%%"
  else if 32 ≤ ch ∧ ch ≤ 126 then buffer.push (Char.ofNat ch)
  else buffer

/-- Payload-word loop of AlphanumericParser::parseMessage: three 7-bit
characters per word, the first character of word 0 skipped when
fragment_number = 3, and a break with an error note once the content
reaches MAX_MESSAGE_LENGTH - 10 = 502 characters.  Returns (content,
error_message); the first argument counts the remaining words. -/
def alnLoop (pd : List Nat) (mws frag : Nat) : Nat → Nat → String → String × String
  | 0, _, content => (content, "")
  | k + 1, i, content =>
    let dw := pd.getD (mws + i) 0
    let c1 := dw &&& 0x7F
    let c2 := (dw >>> 7) &&& 0x7F
    let c3 := (dw >>> 14) &&& 0x7F
    let content := if i > 0 || frag != 3 then addCharacterSafe c1 content 512 else content
    let content := addCharacterSafe c2 content 512
    let content := addCharacterSafe c3 content 512
    if content.length ≥ 512 - 10 then
      (content, "Message length exceeds maximum allowed size")
    else alnLoop pd mws frag k (i + 1) content

/-- AlphanumericParser::parseMessage (types Alphanumeric = 5 and
Secure = 0): validate, check bounds, run the word loop, attach the
fragment flag and the group bit (processGroupMessage of the parser only
records the group bit). -/
def alphanumericParse (input : ParseInputE) : ParseResultE :=
  if input.phase_data_size == 0 then
    { success := false, error_message := "Phase data size is zero" }
  else if !(input.mtype == 5 || input.mtype == 0) then
    { success := false, error_message := "Message type not supported by this parser" }
  else if input.message_word_start + input.message_length > input.phase_data_size then
    { success := false, error_message := "Message extends beyond phase data" }
  else
    let r := alnLoop input.phase_data input.message_word_start input.fragment_number
      input.message_length 0 ""
    { success := true, content := r.1, error_message := r.2
      fragment_flag := calculateFragmentFlag input.fragment_number input.continuation_flag
      group_bit := if input.is_group_message && decide (0 ≤ input.group_bit) then
          input.group_bit
        else -1 }

/-- FLEX_BCD table (FlexTypes.h). -/
def flexBCD : List Char :=
  ['0', '1', '2', '3', '4', '5', '6', '7', '8', '9', ' ', 'U', ' ', '-', ']', '[',
   Char.ofNat 0]

/-- Bit-extraction state of NumericParser::parseMessage: the 4-bit
digit register, the bit countdown, the current data word and the
content built so far. -/
structure NumSt where
  digit : Nat
  bit_count : Nat
  data_word : Nat
  content : String
deriving Repr, DecidableEq

/-- One bit of the numeric extraction: shift the LSB of data_word into
the top of the digit register; when the countdown hits zero emit the
BCD digit (skipping the 0xC fill) and reset the countdown to 4. -/
def numBitStep (st : NumSt) : NumSt :=
  let digit := (st.digit >>> 1) &&& 0xF
  let digit := if st.data_word &&& 1 == 1 then digit ^^^ 0x8 else digit
  let data_word := st.data_word >>> 1
  let bc := st.bit_count - 1
  if bc == 0 then
    { digit := digit, bit_count := 4, data_word := data_word
      content := if digit != 0xC && decide (digit < 17) then
          st.content.push (flexBCD.getD digit (Char.ofNat 0))
        else st.content }
  else { digit := digit, bit_count := bc, data_word := data_word, content := st.content }

/-- The 21 bit iterations for one word. -/
def num21 (st : NumSt) : NumSt := (List.range 21).foldl (fun s _ => numBitStep s) st

/-- Word loop of NumericParser::parseMessage (word_index from
start_word while <= w2): process 21 bits, then reload data_word from
phase_data[word_index] when in range. -/
def numWords (pd : List Nat) (sz : Nat) : Nat → Nat → NumSt → NumSt
  | 0, _, st => st
  | k + 1, widx, st =>
    let st := num21 st
    let st := if widx < sz then { st with data_word := pd.getD widx 0 } else st
    numWords pd sz k (widx + 1) st

/-- NumericParser::parseMessage (types StandardNumeric = 3,
SpecialNumeric = 4, NumberedNumeric = 7): read the vector word at
input.vector_word_index, derive w1 = (vw >> 7) & 0x7F and
w2 = ((w1 & 0x7F) >> 7) & 0x07 + w1 (note w1 is masked before the
shift), pick the first data word and range by address length, skip 10
header bits for NumberedNumeric else 2, and run the word loop. -/
def numericParse (input : ParseInputE) : ParseResultE :=
  if input.phase_data_size == 0 then
    { success := false, error_message := "Phase data size is zero" }
  else if !(input.mtype == 3 || input.mtype == 4 || input.mtype == 7) then
    { success := false, error_message := "Message type not supported by this parser" }
  else
    let vw := input.phase_data.getD input.vector_word_index 0
    let w1a := (vw >>> 7) &&& 0x7F
    let w2a := (w1a >>> 7) &&& 0x07
    let w1 := w1a &&& 0x7F
    let w2 := w2a + w1
    if w2 ≥ input.phase_data_size then
      { success := false, error_message := "Numeric message extends beyond phase data"
        fragment_flag := calculateFragmentFlag input.fragment_number input.continuation_flag }
    else
      let first :=
        if !input.long_address then (input.phase_data.getD w1 0, w1 + 1, w2 + 1)
        else (input.phase_data.getD (input.vector_word_index + 1) 0, w1, w2)
      let bc0 := 4 + (if input.mtype == 7 then 10 else 2)
      let count := first.2.2 + 1 - first.2.1
      let stF := numWords input.phase_data input.phase_data_size count first.2.1
        ({ digit := 0, bit_count := bc0, data_word := first.1, content := "" })
      { success := true, content := stF.content
        fragment_flag := calculateFragmentFlag input.fragment_number input.continuation_flag }

/-- ToneParser::extractShortNumeric: BCD digits at vector-word bit
positions 9, 13, 17, and for long addresses positions 0, 4, 8, 12, 16
of the next word. -/
def extractShortNumeric (vw : Nat) (long_address : Bool) (input : ParseInputE) : String :=
  let c1 := [9, 13, 17].foldl
    (fun s pos =>
      let digit := (vw >>> pos) &&& 0xF
      if decide (digit < 17) then s.push (flexBCD.getD digit (Char.ofNat 0)) else s) ""
  if long_address then
    if input.vector_word_index + 1 < input.phase_data_size then
      let nvw := input.phase_data.getD (input.vector_word_index + 1) 0
      [0, 4, 8, 12, 16].foldl
        (fun s pos =>
          let digit := (nvw >>> pos) &&& 0xF
          if decide (digit < 17) then s.push (flexBCD.getD digit (Char.ofNat 0)) else s) c1
    else c1
  else c1

/-- ToneParser::parseMessage (type Tone = 2): short-numeric digits when
(vw >> 7) & 0x03 = 0, otherwise empty content. -/
def toneParse (input : ParseInputE) : ParseResultE :=
  if input.phase_data_size == 0 then
    { success := false, error_message := "Phase data size is zero" }
  else if !(input.mtype == 2) then
    { success := false, error_message := "Message type not supported by this parser" }
  else if input.vector_word_index ≥ input.phase_data_size then
    { success := false, error_message := "Vector word index out of bounds" }
  else
    let vw := input.phase_data.getD input.vector_word_index 0
    let bits := (vw >>> 7) &&& 0x03
    { success := true
      content := if bits == 0 then extractShortNumeric vw input.long_address input else ""
      fragment_flag := calculateFragmentFlag input.fragment_number input.continuation_flag }

/-- Upper-case hex digits. -/
def hexDigits : List Char :=
  ['0', '1', '2', '3', '4', '5', '6', '7', '8', '9', 'A', 'B', 'C', 'D', 'E', 'F']

/-- One word as 8 upper-case hex digits (setw(8) with setfill zero). -/
def hex8 (w : Nat) : String :=
  String.mk ((List.range 8).map (fun k => hexDigits.getD ((w >>> (4 * (7 - k))) &&& 0xF) '0'))

/-- Single-space separator used between hex words. -/
def spaceSep : String := " "

/-- BinaryParser::parseMessage (type Binary = 6): the payload words as
space-separated 8-hex-digit groups. -/
def binaryParse (input : ParseInputE) : ParseResultE :=
  if input.phase_data_size == 0 then
    { success := false, error_message := "Phase data size is zero" }
  else if !(input.mtype == 6) then
    { success := false, error_message := "Message type not supported by this parser" }
  else if input.message_word_start + input.message_length > input.phase_data_size then
    { success := false, error_message := "Message extends beyond phase data" }
  else
    { success := true
      content := String.intercalate spaceSep ((List.range input.message_length).map
        (fun i => hex8 (input.phase_data.getD (input.message_word_start + i) 0)))
      fragment_flag := calculateFragmentFlag input.fragment_number input.continuation_flag }

/-- BinaryParser::parseAsDefault: the same hex dump without the type
check (fallback for types with no registered parser). -/
def binaryParseAsDefault (input : ParseInputE) : ParseResultE :=
  if input.phase_data_size == 0 then
    { success := false, error_message := "Invalid phase data for binary fallback parsing" }
  else if input.message_word_start + input.message_length > input.phase_data_size then
    { success := false, error_message := "Message extends beyond phase data" }
  else
    { success := true
      content := String.intercalate spaceSep ((List.range input.message_length).map
        (fun i => hex8 (input.phase_data.getD (input.message_word_start + i) 0)))
      fragment_flag := calculateFragmentFlag input.fragment_number input.continuation_flag }

/-- Parser selection of FlexMessageDecoder (buildParserMap): types 5/0
alphanumeric, 3/4/7 numeric, 2 tone, 6 binary, anything else the binary
fallback. -/
def parseDispatch (input : ParseInputE) : ParseResultE :=
  if input.mtype == 5 || input.mtype == 0 then alphanumericParse input
  else if input.mtype == 3 || input.mtype == 4 || input.mtype == 7 then numericParse input
  else if input.mtype == 2 then toneParse input
  else if input.mtype == 6 then binaryParse input
  else binaryParseAsDefault input

/-- GroupMessageData::isEmpty (group_bit = -1 or no capcodes). -/
def groupDataIsEmpty (r : ParseResultE) : Bool :=
  r.group_bit == -1 || r.group_capcodes.isEmpty

/-- FlexMessageDecoder::parseMessage: dispatch to the parser, validate
the content length against MAX_ALN = 512, and run group processing when
the group data is non-empty (the parser never fills the capcode list,
so groupDataIsEmpty holds and the registry is not consulted).  Fragment
assembly, content post-processing and output formatting only rewrite
the result fields and are not modelled. -/
def messageDecoderParse (input : ParseInputE) (groups : List GroupEntry) :
    ParseResultE × List GroupEntry :=
  let r := parseDispatch input
  let r := if r.success && decide (r.content.length > 512) then
      { r with success := false }
    else r
  if r.success && !(groupDataIsEmpty r) then
    let gi := processGroupMessage r.group_bit groups
    (if gi.1.is_valid then { r with group_capcodes := gi.1.capcodes } else r, gi.2)
  else (r, groups)

/-! ## Frame processor (FlexFrameProcessor.cpp) -/

/-- BlockInfoWord (FlexFrameProcessor.h). -/
structure BlockInfoWordE where
  raw_data : Nat := 0
  address_offset : Nat := 0
  vector_offset : Nat := 0
  max_pages : Nat := 0
  is_valid : Bool := false
deriving Repr, DecidableEq

/-- BlockInfoWord::isValid: is_valid with vector_offset > address_offset
and max_pages > 0. -/
def biwIsValid (b : BlockInfoWordE) : Bool :=
  b.is_valid && decide (b.vector_offset > b.address_offset) && decide (b.max_pages > 0)

/-- FlexFrameProcessor::extractBlockInfoWord: reject empty data, the
zero word and the all-ones word; extract address_offset =
((biw >> 8) & 3) + 1 and vector_offset = (biw >> 10) & 0x3F, reject
vector_offset < address_offset, else record max_pages and validate. -/
def extractBlockInfoWord (phase_data : List Nat) : BlockInfoWordE :=
  if phase_data.isEmpty then {}
  else
    let raw := phase_data.getD 0 0
    if raw == 0 || (raw &&& 0x1FFFFF) == 0x1FFFFF then { raw_data := raw }
    else
      let ao := ((raw >>> 8) &&& 0x3) + 1
      let vo := (raw >>> 10) &&& 0x3F
      if vo < ao then { raw_data := raw, address_offset := ao, vector_offset := vo }
      else
        { raw_data := raw, address_offset := ao, vector_offset := vo
          max_pages := vo - ao, is_valid := true }

/-- AddressInfoWord (FlexFrameProcessor.h). -/
structure AddressInfoWordE where
  raw_data : Nat := 0
  capcode : Int := 0
  long_address : Bool := false
  is_group_message : Bool := false
  group_bit : Int := -1
  is_valid : Bool := false
deriving Repr, DecidableEq

/-- FlexFrameProcessor::isValidCapcode (0 <= capcode <= MAX_CAPCODE). -/
def isValidCapcode (c : Int) : Bool := decide (0 ≤ c) && decide (c ≤ 4297068542)

/-- FlexGroupHandler::isGroupCapcode (2029568..2029583). -/
def isGroupCapcode (c : Int) : Bool := decide (2029568 ≤ c) && decide (c ≤ 2029583)

/-- FlexGroupHandler::getGroupBit. -/
def getGroupBit (c : Int) : Int := if !isGroupCapcode c then -1 else c - 2029568

/-- AddressInfoWord::isValid. -/
def aiwIsValid (a : AddressInfoWordE) : Bool := a.is_valid && isValidCapcode a.capcode

/-- FlexFrameProcessor::processAddressInfoWord: classify long addresses
by the three threshold windows, compute the capcode (long:
(next ^ 0x1FFFFF) << 15 + 2068480 + raw; short: raw - 0x8000), validate
the range, and flag group capcodes (group with long address stays
invalid). -/
def processAddressInfoWord (raw next_word : Nat) : AddressInfoWordE :=
  let la := decide (raw < 0x8001) || (decide (0x1E0000 < raw) && decide (raw < 0x1F0001)) ||
    decide (raw > 0x1F7FFE)
  let capcode : Int :=
    if la then ((((next_word ^^^ 0x1FFFFF) <<< 15) + 2068480 + raw : Nat) : Int)
    else (raw : Int) - 0x8000
  if !isValidCapcode capcode then
    { raw_data := raw, capcode := capcode, long_address := la }
  else
    let ig := isGroupCapcode capcode
    if ig && la then
      { raw_data := raw, capcode := capcode, long_address := la
        is_group_message := true, group_bit := getGroupBit capcode }
    else
      { raw_data := raw, capcode := capcode, long_address := la
        is_group_message := ig, group_bit := if ig then getGroupBit capcode else -1
        is_valid := true }

/-- VectorInfoWord (FlexFrameProcessor.h); message_type is the raw
3-bit type value. -/
structure VectorInfoWordE where
  raw_data : Nat := 0
  message_type : Nat := 2
  message_word_start : Nat := 0
  message_length : Nat := 0
  header_word_index : Nat := 0
  fragment_number : Nat := 0
  continuation_flag : Bool := false
  is_valid : Bool := false
  assigned_frame : Nat := 0
  group_bit_target : Int := -1
deriving Repr, DecidableEq

/-- FlexFrameProcessor::processVectorInfoWord: extract type / start /
length; Short Instructions carry assigned_frame and group_bit_target
instead; long addresses keep the start and drop one length word, short
addresses use the start word as header and advance it (non-group
messages also drop one length word); fragment fields come from the
header word when it is non-zero; bounds validate the message, and Tone
messages are forced to an empty, valid payload. -/
def processVectorInfoWord (raw : Nat) (addr : AddressInfoWordE) (header_word : Nat) :
    VectorInfoWordE :=
  let mt := (raw >>> 4) &&& 0x7
  let mws := (raw >>> 7) &&& 0x7F
  let ml := (raw >>> 14) &&& 0x7F
  if mt == 1 then
    let af := (raw >>> 10) &&& 0x7F
    let gbt : Int := (((raw >>> 17) &&& 0x7F : Nat) : Int)
    { raw_data := raw, message_type := mt, message_word_start := mws, message_length := ml
      assigned_frame := af, group_bit_target := gbt
      is_valid := decide (0 ≤ gbt) && decide (gbt < 17) }
  else
    let adj :=
      if addr.long_address then (0, mws, if ml ≥ 1 then ml - 1 else ml)
      else (mws, mws + 1,
        if !addr.is_group_message && ml ≥ 1 then ml - 1 else ml)
    let hwi := adj.1
    let mws2 := adj.2.1
    let ml2 := adj.2.2
    let frag := if header_word != 0 then (header_word >>> 11) &&& 0x3 else 0
    let cont := if header_word != 0 then ((header_word >>> 10) &&& 0x1) == 1 else false
    if mt == 2 then
      { raw_data := raw, message_type := mt, message_word_start := 0, message_length := 0
        header_word_index := hwi, fragment_number := frag, continuation_flag := cont
        is_valid := true }
    else
      { raw_data := raw, message_type := mt, message_word_start := mws2
        message_length := ml2, header_word_index := hwi, fragment_number := frag
        continuation_flag := cont
        is_valid := decide (ml2 > 0) && decide (mws2 + ml2 ≤ 88) }

/-- FlexFrameProcessor::handleShortInstruction: rebuild the vector word
fields and register the capcode with the group handler. -/
def handleShortInstruction (addr : AddressInfoWordE) (viw : VectorInfoWordE)
    (cyc frm : Nat) (groups : List GroupEntry) : Bool × List GroupEntry :=
  if !(viw.message_type == 1) then (false, groups)
  else
    registerCapcodeToGroup addr.capcode
      ((viw.group_bit_target.toNat <<< 17) ||| (viw.assigned_frame <<< 10)) cyc frm groups

/-- FlexFrameProcessor::parseMessageContent: build the MessageParseInput
(vector_word_index is left at 0, as in the source) and run the message
decoder. -/
def parseMessageContentE (addr : AddressInfoWordE) (viw : VectorInfoWordE)
    (phase_data : List Nat) (groups : List GroupEntry) :
    ParseResultE × List GroupEntry :=
  let input : ParseInputE :=
    { mtype := viw.message_type, long_address := addr.long_address, capcode := addr.capcode
      phase_data := phase_data, phase_data_size := phase_data.length
      message_word_start := viw.message_word_start, message_length := viw.message_length
      vector_word_index := 0
      fragment_number := viw.fragment_number, continuation_flag := viw.continuation_flag
      is_group_message := addr.is_group_message, group_bit := addr.group_bit }
  messageDecoderParse input groups

/-- ProcessedMessage (FlexFrameProcessor.h), without the phase tag. -/
structure ProcessedMessageE where
  address_info : AddressInfoWordE
  vector_info : VectorInfoWordE
  parse_result : ParseResultE
deriving Repr, DecidableEq

/-- The AIW/VIW loop of FlexFrameProcessor::processPhase (i from
address_offset while i < vector_offset): skip idle words, decode the
AIW, locate and decode the VIW at vector_offset + i - address_offset,
register Short Instructions (recording a synthetic message on success),
parse other messages, and consume an extra slot after a long address. -/
def phaseLoop (phase_data : List Nat) (cyc frm ao vo : Nat) :
    Nat → Nat → List GroupEntry → List ProcessedMessageE →
      List ProcessedMessageE × List GroupEntry
  | 0, _, groups, msgs => (msgs, groups)
  | fuel + 1, i, groups, msgs =>
    if i ≥ vo then (msgs, groups)
    else
      let w := phase_data.getD i 0
      if w == 0 || (w &&& 0x1FFFFF) == 0x1FFFFF then
        phaseLoop phase_data cyc frm ao vo fuel (i + 1) groups msgs
      else
        let next_word := if i + 1 < phase_data.length then phase_data.getD (i + 1) 0 else 0
        let aiw := processAddressInfoWord w next_word
        if !aiwIsValid aiw then phaseLoop phase_data cyc frm ao vo fuel (i + 1) groups msgs
        else
          let vector_index := vo + i - ao
          if vector_index ≥ phase_data.length then
            phaseLoop phase_data cyc frm ao vo fuel (i + 1) groups msgs
          else
            let header_word :=
              if aiw.long_address && vector_index + 1 < phase_data.length then
                phase_data.getD (vector_index + 1) 0
              else 0
            let viw := processVectorInfoWord (phase_data.getD vector_index 0) aiw header_word
            if !viw.is_valid then phaseLoop phase_data cyc frm ao vo fuel (i + 1) groups msgs
            else if viw.message_type == 1 then
              let reg := handleShortInstruction aiw viw cyc frm groups
              let siResult : ParseResultE :=
                { success := true, content := "Short Instruction registered"
                  fragment_flag := 'K' }
              let msgs2 :=
                if reg.1 then
                  msgs ++ [{ address_info := aiw, vector_info := viw
                             parse_result := siResult }]
                else msgs
              phaseLoop phase_data cyc frm ao vo fuel (i + 1) reg.2 msgs2
            else
              let pr := parseMessageContentE aiw viw phase_data groups
              let msgs2 := msgs ++ [{ address_info := aiw, vector_info := viw
                                      parse_result := pr.1 }]
              let inext := if aiw.long_address then i + 2 else i + 1
              phaseLoop phase_data cyc frm ao vo fuel inext pr.2 msgs2

/-- FlexFrameProcessor::applyErrorCorrection: fixErrors on every word,
failures replaced by the idle pattern 0x1FFFFF and counted, every word
masked to 21 bits; the sweep succeeds when at most half the words
failed. -/
def applyErrorCorrectionE (phase_data : List Nat) : Bool × List Nat :=
  let r := phase_data.foldl
    (fun (acc : Nat × List Nat) w =>
      match fixErrors w with
      | some c => (acc.1, acc.2 ++ [c &&& 0x1FFFFF])
      | none => (acc.1 + 1, acc.2 ++ [0x1FFFFF]))
    (0, [])
  (decide (r.1 ≤ phase_data.length / 2), r.2)

/-- FlexFrameProcessor::processPhase after the BCH sweep: extract and
validate the BIW, then run the AIW/VIW loop from address_offset. -/
def processCorrectedPhase (phase_data : List Nat) (cyc frm : Nat)
    (groups : List GroupEntry) : List ProcessedMessageE × List GroupEntry :=
  let biw := extractBlockInfoWord phase_data
  if !biwIsValid biw then ([], groups)
  else
    phaseLoop phase_data cyc frm biw.address_offset biw.vector_offset
      (biw.vector_offset + 1) biw.address_offset groups []

/-- FlexFrameProcessor::processPhase: BCH sweep, then the corrected
phase processing; the phase is abandoned when the sweep fails. -/
def processPhaseE (phase_buffer : List Nat) (cyc frm : Nat) (groups : List GroupEntry) :
    List ProcessedMessageE × List GroupEntry :=
  let ec := applyErrorCorrectionE phase_buffer
  if !ec.1 then ([], groups)
  else processCorrectedPhase ec.2 cyc frm groups

/-- FlexFrameProcessor::getActivePhasesForMode (phases as 0 = A .. 3 = D). -/
def getActivePhasesForMode (baud levels : Nat) : List Nat :=
  if baud == 1600 then (if levels == 2 then [0] else [0, 1])
  else (if levels == 2 then [0, 2] else [0, 1, 2, 3])

/-- FlexFrameProcessor::processFrame: run every active phase in order,
threading the registry and concatenating the messages. -/
def processFrameE (coll : CollectorE) (baud levels cyc frm : Nat)
    (groups : List GroupEntry) : List ProcessedMessageE × List GroupEntry :=
  (getActivePhasesForMode baud levels).foldl
    (fun acc ph =>
      let buf :=
        match ph with
        | 0 => coll.phase_a.buffer
        | 1 => coll.phase_b.buffer
        | 2 => coll.phase_c.buffer
        | _ => coll.phase_d.buffer
      let r := processPhaseE buf cyc frm acc.2
      (acc.1 ++ r.1, r.2))
    ([], groups)

/-! ## Decoder facade (FlexDecoder.cpp) -/

/-- The decoder state routed through processSingleSample and the
per-state symbol handlers. -/
structure DecoderE where
  state : FlexSt := FlexSt.sync1
  demod_baud : Nat := 1600
  sync_info : SyncInfoE := {}
  sync_buffer : Nat := 0
  last_polarity : Bool := false
  fiw_count : Nat := 0
  fiw_raw : Nat := 0
  sync2_count : Nat := 0
  data_count : Nat := 0
  collector : CollectorE := {}
  groups : List GroupEntry := List.replicate 17 {}
deriving Repr, DecidableEq

/-- FlexDecoder::handleSync1State: run the synchronizer; on an accepted
pattern decode the mode (which overwrites sync_info even on failure) and
enter FIW only when the mode decode succeeds; always zero the FIW
counters. -/
def handleSync1StateE (st : DecoderE) (symbol : Nat) : DecoderE :=
  let r := syncProcessSymbol st.sync_buffer st.last_polarity symbol
  let st := { st with sync_buffer := r.1, last_polarity := r.2.2 }
  let sync_code := r.2.1
  let st :=
    if sync_code != 0 then
      let dm := decodeSyncMode st.last_polarity sync_code
      let st := { st with sync_info := dm.2 }
      if dm.1 then { st with state := FlexSt.fiw } else st
    else { st with state := FlexSt.sync1 }
  { st with fiw_count := 0, fiw_raw := 0 }

/-- FlexDecoder::handleSync2State: count symbols; at
demodulator-baud * SYNC2_DURATION_MS / 1000 clear the phase buffers and
enter DATA. -/
def handleSync2StateE (st : DecoderE) : DecoderE :=
  let c := st.sync2_count + 1
  let sync2_symbols := st.demod_baud * 25 / 1000
  if c == sync2_symbols then
    { st with state := FlexSt.data, sync2_count := c, data_count := 0
              collector := collectorReset st.collector }
  else { st with sync2_count := c }

/-- FlexDecoder::handleDataState: feed the collector; at
demodulator-baud * DATA_DURATION_MS / 1000 symbols or when all active
phases are idle, process the frame (processCompletedFrame reads cycle
and frame from the RAW FIW and the baud from the demodulator), reset
the demodulator baud to 1600 and return to SYNC1. -/
def handleDataStateE (st : DecoderE) (symbol : Nat) : DecoderE :=
  let r := collectorProcessSymbol st.collector symbol st.sync_info.levels
  let all_idle := r.1
  let coll := r.2
  let dc := st.data_count + 1
  let max_syms := st.demod_baud * 1760 / 1000
  if dc == max_syms || all_idle then
    let fr := processFrameE coll st.demod_baud coll.fsk_levels
      ((st.fiw_raw >>> 4) &&& 0xF) ((st.fiw_raw >>> 8) &&& 0x7F) st.groups
    { st with collector := coll, groups := fr.2, state := FlexSt.sync1
              demod_baud := 1600, data_count := 0 }
  else { st with collector := coll, data_count := dc }

/-- The locked-symbol path of FlexDecoder::processSingleSample and
processSymbol: the demodulator baud is forced to 1600 at the start of
EVERY sample (the "first syncword and FIW" comment in the source), the
symbol is rectified by the observed polarity, and the current state's
handler runs. -/
def processSymbolPipeline (st : DecoderE) (symbol : Nat) : DecoderE :=
  let st := { st with demod_baud := 1600 }
  let sym_rect := if st.last_polarity then 3 - symbol else symbol
  match st.state with
  | FlexSt.sync1 => handleSync1StateE st symbol
  | FlexSt.fiw =>
    let out := handleFIWState st.fiw_count st.fiw_raw sym_rect st.sync_info.baud_rate
      st.groups st.demod_baud st.sync2_count
    { st with fiw_count := out.fiw_count, fiw_raw := out.fiw_raw, state := out.next_state
              groups := out.groups, demod_baud := out.demod_baud
              sync2_count := out.sync2_count }
  | FlexSt.sync2 => handleSync2StateE st
  | FlexSt.data => handleDataStateE st symbol

-- ===================================================================
-- Theorems
-- ===================================================================

/-! ### Table correctness: the packed literals match the generated tables -/

theorem alphaAt_gen : ∀ i ∈ List.range 31, alphaAt i = alphaToGen.getD i 0 := by decide

theorem indexOf_gen : ∀ x ∈ List.range 32, index_of x = indexOfGen x := by decide

theorem gMask_gen :
    gMask = (List.range 10).foldl
      (fun m j => if gPolyGen.getD j 0 ≠ 0 then m ||| (1 <<< j) else m) 0 := by decide

/-! ### Linearity of the syndrome and of the encoder over GF(2) -/

theorem xor_left_comm (a b c : Nat) : a ^^^ (b ^^^ c) = b ^^^ (a ^^^ c) := by
  rw [← Nat.xor_assoc, Nat.xor_comm a b, Nat.xor_assoc]

theorem if_xor_split (b1 b2 : Bool) (a : Nat) :
    (if (b1 != b2) = true then a else 0) =
      (if b1 = true then a else 0) ^^^ (if b2 = true then a else 0) := by
  cases b1 <;> cases b2 <;> simp

theorem syndAux_xor (x y i : Nat) : ∀ n, syndAux (x ^^^ y) i n = syndAux x i n ^^^ syndAux y i n := by
  intro n
  induction n with
  | zero =>
    simp only [syndAux, Nat.testBit_xor, if_xor_split]
  | succ n ih =>
    simp only [syndAux, Nat.testBit_xor, if_xor_split, ih]
    generalize (if Nat.testBit x (n + 1) = true then alphaAt (i * (n + 1) % 31) else 0) = A
    generalize (if Nat.testBit y (n + 1) = true then alphaAt (i * (n + 1) % 31) else 0) = B
    generalize syndAux x i n = C
    generalize syndAux y i n = D
    simp only [Nat.xor_assoc, Nat.xor_comm, xor_left_comm]

theorem syndrome_xor (x y i : Nat) : syndrome (x ^^^ y) i = syndrome x i ^^^ syndrome y i :=
  syndAux_xor x y i 30

theorem shiftLeft_xor_distrib (x y n : Nat) : (x ^^^ y) <<< n = (x <<< n) ^^^ (y <<< n) := by
  apply Nat.eq_of_testBit_eq
  intro i
  simp only [Nat.testBit_shiftLeft, Nat.testBit_xor, Bool.and_xor_distrib_left]

theorem encStep_xor (s1 s2 : Nat) (b1 b2 : Bool) :
    encStep (s1 ^^^ s2) (b1 != b2) = encStep s1 b1 ^^^ encStep s2 b2 := by
  unfold encStep
  have hfb : ((b1 != b2) != Nat.testBit (s1 ^^^ s2) 9) =
      ((b1 != Nat.testBit s1 9) != (b2 != Nat.testBit s2 9)) := by
    rw [Nat.testBit_xor]
    cases b1 <;> cases b2 <;> cases Nat.testBit s1 9 <;> cases Nat.testBit s2 9 <;> rfl
  rw [hfb]
  have hsh : ((s1 ^^^ s2) <<< 1) &&& 1023 = ((s1 <<< 1) &&& 1023) ^^^ ((s2 <<< 1) &&& 1023) := by
    rw [shiftLeft_xor_distrib, Nat.and_xor_distrib_right]
  rw [hsh]
  generalize (s1 <<< 1) &&& 1023 = A
  generalize (s2 <<< 1) &&& 1023 = B
  cases h1 : (b1 != Nat.testBit s1 9) <;> cases h2 : (b2 != Nat.testBit s2 9) <;>
    simp [Nat.xor_assoc, Nat.xor_comm, xor_left_comm, Nat.xor_self, Nat.xor_zero, Nat.zero_xor]

theorem remFold_xor (x y : Nat) (l : List Nat) (s1 s2 : Nat) :
    l.foldl (fun s i => encStep s ((x ^^^ y).testBit i)) (s1 ^^^ s2) =
      (l.foldl (fun s i => encStep s (x.testBit i)) s1) ^^^
        (l.foldl (fun s i => encStep s (y.testBit i)) s2) := by
  induction l generalizing s1 s2 with
  | nil => rfl
  | cons j js ih =>
    simp only [List.foldl_cons]
    rw [show Nat.testBit (x ^^^ y) j = (x.testBit j != y.testBit j) by
          rw [Nat.testBit_xor]]
    rw [encStep_xor, ih]

theorem bchRemainder_xor (x y : Nat) :
    bchRemainder (x ^^^ y) = bchRemainder x ^^^ bchRemainder y := by
  unfold bchRemainder
  have h := remFold_xor x y (List.range 21).reverse 0 0
  simpa using h

theorem encodeX_xor (x y : Nat) : encodeX (x ^^^ y) = encodeX x ^^^ encodeX y := by
  unfold encodeX
  rw [bchRemainder_xor, shiftLeft_xor_distrib]
  generalize bchRemainder x <<< 21 = A
  generalize bchRemainder y <<< 21 = B
  simp only [Nat.xor_assoc, Nat.xor_comm, xor_left_comm]

theorem encStep_lt (s : Nat) (b : Bool) : encStep s b < 1024 := by
  unfold encStep
  have h1 : (s <<< 1) &&& 1023 < 1024 :=
    Nat.lt_succ_of_le (Nat.and_le_right)
  cases hb : (b != s.testBit 9) <;> simp
  · exact h1
  · exact Nat.xor_lt_two_pow (n := 10) h1 (by decide)

theorem remFold_lt (x : Nat) (l : List Nat) (s : Nat) (hs : s < 1024) :
    l.foldl (fun s i => encStep s (x.testBit i)) s < 1024 := by
  induction l generalizing s with
  | nil => exact hs
  | cons j js ih => exact ih _ (encStep_lt _ _)

theorem bchRemainder_lt (d : Nat) : bchRemainder d < 1024 :=
  remFold_lt d _ 0 (by decide)

theorem bchEncode_eq_encodeX (d : Nat) (hd : d < 2 ^ 21) : bchEncode d = encodeX d := by
  unfold bchEncode encodeX
  apply Nat.eq_of_testBit_eq
  intro i
  simp only [Nat.testBit_or, Nat.testBit_xor]
  rcases Nat.lt_or_ge i 21 with hi | hi
  · have hrb : (bchRemainder d <<< 21).testBit i = false := by
      simp only [Nat.testBit_shiftLeft]
      simp [Nat.not_le.mpr hi]
    rw [hrb]
    cases d.testBit i <;> rfl
  · have hdb : d.testBit i = false :=
      Nat.testBit_lt_two_pow (Nat.lt_of_lt_of_le hd (Nat.pow_le_pow_right (by decide) hi))
    rw [hdb]
    cases (bchRemainder d <<< 21).testBit i <;> rfl

/-! ### Codewords have zero syndromes -/

theorem basisSyndZero :
    ∀ k ∈ List.range 21, ∀ i ∈ [1, 2, 3, 4], syndrome (encodeX (1 <<< k)) i = 0 := by decide

theorem two_pow_add_eq_xor (k m : Nat) (h : m < 2 ^ k) : 2 ^ k + m = 2 ^ k ^^^ m := by
  apply Nat.eq_of_testBit_eq
  intro i
  rcases Nat.lt_trichotomy i k with hik | hik | hik
  · rw [Nat.testBit_two_pow_add_gt hik, Nat.testBit_xor, Nat.testBit_two_pow]
    have : ¬(k = i) := by omega
    simp [this]
  · subst hik
    rw [Nat.testBit_two_pow_add_eq, Nat.testBit_xor, Nat.testBit_two_pow]
    simp [Nat.testBit_lt_two_pow h]
  · have h1 : 2 ^ k + m < 2 ^ i := by
      have h2 : 2 ^ k + m < 2 ^ (k + 1) := by
        have := Nat.pow_succ 2 k
        omega
      exact Nat.lt_of_lt_of_le h2 (Nat.pow_le_pow_right (by decide) hik)
    rw [Nat.testBit_lt_two_pow h1, Nat.testBit_xor, Nat.testBit_two_pow,
      Nat.testBit_lt_two_pow (Nat.lt_of_lt_of_le h (Nat.pow_le_pow_right (by decide) (by omega)))]
    have : ¬(k = i) := by omega
    simp [this]

theorem codewordSyndZero :
    ∀ k, k ≤ 21 → ∀ d, d < 2 ^ k → ∀ i ∈ [1, 2, 3, 4], syndrome (encodeX d) i = 0 := by
  intro k
  induction k with
  | zero =>
    intro _ d hd i hi
    have hd0 : d = 0 := by omega
    subst hd0
    revert i hi
    decide
  | succ k ih =>
    intro hk d hd i hi
    rcases Nat.lt_or_ge d (2 ^ k) with hdk | hdk
    · exact ih (by omega) d hdk i hi
    · have hm : d - 2 ^ k < 2 ^ k := by
        have := Nat.pow_succ 2 k
        omega
      have hd2 : d = 2 ^ k ^^^ (d - 2 ^ k) := by
        rw [← two_pow_add_eq_xor k _ hm]
        omega
      rw [hd2, encodeX_xor, syndrome_xor]
      rw [ih (by omega) _ hm i hi]
      have hbk : syndrome (encodeX (2 ^ k)) i = 0 := by
        have h1 : (1 : Nat) <<< k = 2 ^ k := Nat.one_shiftLeft k
        rw [← h1]
        exact basisSyndZero k (List.mem_range.mpr (by omega)) i hi
      rw [hbk]
      rfl

/-! ### The two-error table: for every pair of distinct positions the
syndrome-driven part of BCHCode::decode flips exactly those positions -/

theorem singleBitSynd :
    ∀ k ∈ List.range 31, ∀ i ∈ [1, 2, 3, 4],
      syndrome (1 <<< k) i = alphaAt (i * k % 31) := by decide

set_option maxRecDepth 10000 in
set_option maxHeartbeats 1000000 in
theorem pairFlips :
    ∀ p ∈ List.range 31, ∀ q ∈ List.range 31, p < q →
      flipsFromSynd (alphaAt (1 * p % 31) ^^^ alphaAt (1 * q % 31))
          (alphaAt (2 * p % 31) ^^^ alphaAt (2 * q % 31))
          (alphaAt (3 * p % 31) ^^^ alphaAt (3 * q % 31))
          (alphaAt (4 * p % 31) ^^^ alphaAt (4 * q % 31))
        = some ((1 <<< p) ^^^ (1 <<< q))
      ∧ countBits32 ((1 <<< p) ^^^ (1 <<< q)) = 2 := by decide

theorem pairFlips_all (p q : Nat) (hp : p < 31) (hq : q < 31) (hpq : p ≠ q) :
    flipsFromSynd (syndrome ((1 <<< p) ^^^ (1 <<< q)) 1) (syndrome ((1 <<< p) ^^^ (1 <<< q)) 2)
        (syndrome ((1 <<< p) ^^^ (1 <<< q)) 3) (syndrome ((1 <<< p) ^^^ (1 <<< q)) 4)
      = some ((1 <<< p) ^^^ (1 <<< q))
    ∧ countBits32 ((1 <<< p) ^^^ (1 <<< q)) = 2 := by
  have key : ∀ a b : Nat, a < 31 → b < 31 → a < b →
      flipsFromSynd (syndrome ((1 <<< a) ^^^ (1 <<< b)) 1) (syndrome ((1 <<< a) ^^^ (1 <<< b)) 2)
          (syndrome ((1 <<< a) ^^^ (1 <<< b)) 3) (syndrome ((1 <<< a) ^^^ (1 <<< b)) 4)
        = some ((1 <<< a) ^^^ (1 <<< b))
      ∧ countBits32 ((1 <<< a) ^^^ (1 <<< b)) = 2 := by
    intro a b ha hb hab
    have hsyn : ∀ i ∈ [1, 2, 3, 4],
        syndrome ((1 <<< a) ^^^ (1 <<< b)) i = alphaAt (i * a % 31) ^^^ alphaAt (i * b % 31) := by
      intro i hi
      rw [syndrome_xor, singleBitSynd a (List.mem_range.mpr ha) i hi,
        singleBitSynd b (List.mem_range.mpr hb) i hi]
    rw [hsyn 1 (by simp), hsyn 2 (by simp), hsyn 3 (by simp), hsyn 4 (by simp)]
    exact pairFlips a (List.mem_range.mpr ha) b (List.mem_range.mpr hb) hab
  rcases Nat.lt_or_ge p q with h | h
  · exact key p q hp hq h
  · have hqp : q < p := by omega
    have hx : (1 <<< p) ^^^ (1 <<< q) = (1 <<< q) ^^^ (1 <<< p) := Nat.xor_comm _ _
    rw [hx]
    exact key q p hq hp hqp

/-- C1: For every 21-bit data word d and every pair of distinct bit
positions p, q in 0..30, BCHCode::decode on encode(d) with bits p and q
flipped succeeds (retval 0): the error-locator polynomial and Chien
search find exactly two roots, those positions are flipped back, so the
result equals encode(d), and the number of corrected bits is 2. -/
theorem bch_double_error_correction (d p q : Nat) (hd : d < 2 ^ 21)
    (hp : p < 31) (hq : q < 31) (hpq : p ≠ q) :
    bchDecode (bchEncode d ^^^ ((1 <<< p) ^^^ (1 <<< q))) = some (bchEncode d) ∧
    countBits32 ((bchEncode d ^^^ ((1 <<< p) ^^^ (1 <<< q))) ^^^ bchEncode d) = 2 := by
  have hx := bchEncode_eq_encodeX d hd
  obtain ⟨hflips, hcount⟩ := pairFlips_all p q hp hq hpq
  have hsyn : ∀ i ∈ [1, 2, 3, 4],
      syndrome (bchEncode d ^^^ ((1 <<< p) ^^^ (1 <<< q))) i =
        syndrome ((1 <<< p) ^^^ (1 <<< q)) i := by
    intro i hi
    rw [syndrome_xor, hx, codewordSyndZero 21 (by omega) d hd i hi, Nat.zero_xor]
  have hdiff : (bchEncode d ^^^ ((1 <<< p) ^^^ (1 <<< q))) ^^^ bchEncode d =
      (1 <<< p) ^^^ (1 <<< q) := by
    rw [Nat.xor_comm (bchEncode d) ((1 <<< p) ^^^ (1 <<< q)), Nat.xor_assoc,
      Nat.xor_self, Nat.xor_zero]
  constructor
  · unfold bchDecode
    rw [hsyn 1 (by simp), hsyn 2 (by simp), hsyn 3 (by simp), hsyn 4 (by simp), hflips]
    have hres : (bchEncode d ^^^ ((1 <<< p) ^^^ (1 <<< q))) ^^^ ((1 <<< p) ^^^ (1 <<< q)) =
        bchEncode d := by
      rw [Nat.xor_assoc, Nat.xor_self, Nat.xor_zero]
    simp only [Option.map_some', hres]
  · rw [hdiff]
    exact hcount

/-- Witness for bch_double_error_correction at d = 77777, p = 3, q = 27. -/
theorem bch_double_error_correction_witness :
    bchDecode (bchEncode 77777 ^^^ ((1 <<< 3) ^^^ (1 <<< 27))) = some (bchEncode 77777) ∧
    countBits32 ((bchEncode 77777 ^^^ ((1 <<< 3) ^^^ (1 <<< 27))) ^^^ bchEncode 77777) = 2 :=
  bch_double_error_correction 77777 3 27 (by decide) (by decide) (by decide) (by decide)

/-! ### Group registry theorems -/

theorem shouldExpire_iff_spec (g : GroupEntry) (cc cf : Nat)
    (hp : hasPendingCapcodes g = true) (h0 : 0 ≤ g.target_cycle) (h15 : g.target_cycle ≤ 15) :
    shouldExpireGroup g cc cf = true ↔ specResetRule cc cf g := by
  unfold shouldExpireGroup specResetRule
  rw [hp]
  simp only [Bool.not_true, Bool.false_eq_true, if_false]
  split_ifs with h1 h2 h3 <;>
    simp_all [beq_iff_eq, Bool.and_eq_true, decide_eq_true_eq] <;> omega

theorem getD_set_self {α : Type} (l : List α) (n : Nat) (a d : α) (h : n < l.length) :
    (l.set n a).getD n d = a := by
  simp [List.getD_eq_getElem?_getD, List.getElem?_set_self, h]

theorem getD_set_ne {α : Type} (l : List α) (n m : Nat) (a d : α) (h : n ≠ m) :
    (l.set n a).getD m d = l.getD m d := by
  simp [List.getD_eq_getElem?_getD, List.getElem?_set_ne h]

theorem shouldExpire_eq_decide_spec (g : GroupEntry) (cc cf : Nat)
    (hp : hasPendingCapcodes g = true) (h0 : 0 ≤ g.target_cycle) (h15 : g.target_cycle ≤ 15) :
    shouldExpireGroup g cc cf = decide (specResetRule cc cf g) := by
  have h := shouldExpire_iff_spec g cc cf hp h0 h15
  by_cases hr : specResetRule cc cf g
  · rw [h.mpr hr, decide_eq_true hr]
  · rw [decide_eq_false hr]
    cases hy : shouldExpireGroup g cc cf
    · rfl
    · exact absurd (h.mp hy) hr

theorem cleanupGo_spec (cc cf : Nat) (groups : List GroupEntry) (gb0 : Nat)
    (htc : ∀ g ∈ groups, hasPendingCapcodes g = true →
      0 ≤ g.target_cycle ∧ g.target_cycle ≤ 15) :
    cleanupGo cc cf groups gb0 =
      (((groups.enumFrom gb0).filter
          (fun p => hasPendingCapcodes p.2 && decide (specResetRule cc cf p.2))).map Prod.fst,
        groups.map (fun g =>
          if hasPendingCapcodes g && decide (specResetRule cc cf g) then clearedGroup else g)) := by
  induction groups generalizing gb0 with
  | nil => rfl
  | cons g gs ih =>
    have hg := htc g (List.mem_cons_self g gs)
    have htl : ∀ g' ∈ gs, hasPendingCapcodes g' = true →
        0 ≤ g'.target_cycle ∧ g'.target_cycle ≤ 15 :=
      fun g' hmem => htc g' (List.mem_cons_of_mem g hmem)
    have hb : (hasPendingCapcodes g && shouldExpireGroup g cc cf) =
        (hasPendingCapcodes g && decide (specResetRule cc cf g)) := by
      cases hx : hasPendingCapcodes g
      · rfl
      · simp only [Bool.true_and]
        exact shouldExpire_eq_decide_spec g cc cf hx (hg hx).1 (hg hx).2
    simp only [cleanupGo, ih (gb0 + 1) htl]
    cases hcond : (hasPendingCapcodes g && shouldExpireGroup g cc cf)
    · have hcond2 : (hasPendingCapcodes g && decide (specResetRule cc cf g)) = false := by
        rw [← hb, hcond]
      have hprop : ¬(hasPendingCapcodes g = true ∧ specResetRule cc cf g) := by
        intro hc
        rw [hc.1, Bool.true_and] at hcond2
        exact absurd hc.2 (of_decide_eq_false hcond2)
      simp [List.enumFrom_cons, List.filter_cons, hcond2, hprop]
    · have hcond2 : (hasPendingCapcodes g && decide (specResetRule cc cf g)) = true := by
        rw [← hb, hcond]
      have hand := Bool.and_eq_true_iff.mp hcond2
      have hprop : hasPendingCapcodes g = true ∧ specResetRule cc cf g :=
        ⟨hand.1, of_decide_eq_true hand.2⟩
      simp [List.enumFrom_cons, List.filter_cons, hcond2, hprop]

/-- C2: checkAndCleanupMissedGroups clears exactly the groups with
pending capcodes whose (target_cycle, target_frame) satisfies a
section-4.7 reset rule -- current_cycle = target_cycle with
target_frame < current_frame; current_cycle = 0 with target_cycle = 15;
or target_cycle < current_cycle except the skipped rollover case
current_cycle = 15 / target_cycle = 0 -- returning the list of reset
group bits in order, and leaves every other group unchanged.  Registered
entries always have target_cycle in 0..15 (calculateTargetCycle), which
is the range hypothesis. -/
theorem group_cleanup_spec (cc cf : Nat) (groups : List GroupEntry)
    (htc : ∀ g ∈ groups, hasPendingCapcodes g = true →
      0 ≤ g.target_cycle ∧ g.target_cycle ≤ 15) :
    checkAndCleanupMissedGroups cc cf groups =
      (((groups.enumFrom 0).filter
          (fun p => hasPendingCapcodes p.2 && decide (specResetRule cc cf p.2))).map Prod.fst,
        groups.map (fun g =>
          if hasPendingCapcodes g && decide (specResetRule cc cf g) then clearedGroup else g)) :=
  cleanupGo_spec cc cf groups 0 htc

/-- Witness for group_cleanup_spec: a registry with one expired entry
(target cycle 1 < current cycle 2), one persisting entry and one empty
entry. -/
theorem group_cleanup_spec_witness :
    checkAndCleanupMissedGroups 2 5
      [{ capcodes := [7], target_frame := 3, target_cycle := 1 },
       { capcodes := [9], target_frame := 7, target_cycle := 2 },
       ({} : GroupEntry)] =
      (([0] : List Nat),
       [clearedGroup, { capcodes := [9], target_frame := 7, target_cycle := 2 },
        ({} : GroupEntry)]) := by
  have h := group_cleanup_spec 2 5
    [{ capcodes := [7], target_frame := 3, target_cycle := 1 },
     { capcodes := [9], target_frame := 7, target_cycle := 2 },
     ({} : GroupEntry)] (by decide)
  rw [h]
  decide

/-- C10: group registration never deduplicates.  For a registry of the
17 group entries, a vector word naming group bit g < 17 and any capcode
c, registering twice while the list stays below the 1000 cap appends c
both times; the entry then holds c twice and a delivery for g returns a
list counting c twice and clears the entry.  A single registration fails
exactly when the group bit is out of range or the list is full. -/
theorem group_register_no_dedup (c : Int) (viw cc cf cc2 cf2 : Nat)
    (groups : List GroupEntry) (hlen : groups.length = 17)
    (hg : (viw >>> 17) &&& 0x7F < 17)
    (hroom : (groups.getD ((viw >>> 17) &&& 0x7F) {}).capcodes.length + 1 < 1000) :
    let g := (viw >>> 17) &&& 0x7F
    let st1 := registerCapcodeToGroup c viw cc cf groups
    let st2 := registerCapcodeToGroup c viw cc2 cf2 st1.2
    st1.1 = true ∧ st2.1 = true ∧
    (st2.2.getD g {}).capcodes = (groups.getD g {}).capcodes ++ [c, c] ∧
    (processGroupMessage (g : Int) st2.2).1.is_valid = true ∧
    ((processGroupMessage (g : Int) st2.2).1.capcodes.count c =
      (groups.getD g {}).capcodes.count c + 2) ∧
    (∀ (viw2 : Nat) (groups2 : List GroupEntry),
      (registerCapcodeToGroup c viw2 cc cf groups2).1 = false ↔
        ((viw2 >>> 17) &&& 0x7F ≥ 17 ∨
          (groups2.getD ((viw2 >>> 17) &&& 0x7F) {}).capcodes.length ≥ 1000)) := by
  intro g st1 st2
  have hroom2 : (groups.getD g {}).capcodes.length + 1 < 1000 := hroom
  have hg2 : g < 17 := hg
  have hglen : g < groups.length := by rw [hlen]; exact hg2
  have hng : ¬(g ≥ 17) := by omega
  have hnc : ¬((groups.getD g {}).capcodes.length ≥ 1000) := by omega
  have hst1 : st1 = (true, groups.set g
      { capcodes := (groups.getD g {}).capcodes ++ [c]
        target_frame := (((viw >>> 10) &&& 0x7F : Nat) : Int)
        target_cycle := ((calculateTargetCycle ((viw >>> 10) &&& 0x7F) cc cf : Nat) : Int) }) := by
    show registerCapcodeToGroup c viw cc cf groups = _
    unfold registerCapcodeToGroup
    rw [if_neg hng, if_neg hnc]
  have hget1 : (st1.2.getD g {}) =
      { capcodes := (groups.getD g {}).capcodes ++ [c]
        target_frame := (((viw >>> 10) &&& 0x7F : Nat) : Int)
        target_cycle := ((calculateTargetCycle ((viw >>> 10) &&& 0x7F) cc cf : Nat) : Int) } := by
    rw [hst1]
    exact getD_set_self groups g _ {} hglen
  have hnc2 : ¬((st1.2.getD g {}).capcodes.length ≥ 1000) := by
    rw [hget1]
    simp only [List.length_append, List.length_cons, List.length_nil]
    omega
  have hst2 : st2 = (true, st1.2.set g
      { capcodes := (st1.2.getD g {}).capcodes ++ [c]
        target_frame := (((viw >>> 10) &&& 0x7F : Nat) : Int)
        target_cycle := ((calculateTargetCycle ((viw >>> 10) &&& 0x7F) cc2 cf2 : Nat) : Int) }) := by
    show registerCapcodeToGroup c viw cc2 cf2 st1.2 = _
    unfold registerCapcodeToGroup
    rw [if_neg hng, if_neg hnc2]
  have hglen2 : g < st1.2.length := by
    rw [hst1]
    simpa using hglen
  have hget2 : (st2.2.getD g {}) =
      { capcodes := (groups.getD g {}).capcodes ++ [c, c]
        target_frame := (((viw >>> 10) &&& 0x7F : Nat) : Int)
        target_cycle := ((calculateTargetCycle ((viw >>> 10) &&& 0x7F) cc2 cf2 : Nat) : Int) } := by
    rw [hst2]
    rw [getD_set_self st1.2 g _ {} hglen2, hget1]
    simp
  have hpend2 : hasPendingCapcodes (st2.2.getD g {}) = true := by
    rw [hget2]
    unfold hasPendingCapcodes
    simp only [Bool.and_eq_true, decide_eq_true_eq]
    constructor
    · simp [List.isEmpty_iff]
    · exact Int.natCast_nonneg _
  have hdeliver : processGroupMessage (g : Int) st2.2 =
      ({ group_bit := (g : Int), capcodes := (st2.2.getD g {}).capcodes, is_valid := true },
        st2.2.set g clearedGroup) := by
    unfold processGroupMessage
    have hno : ¬((g : Int) < 0 ∨ (g : Int) ≥ 17) := by
      push_neg
      constructor
      · exact Int.natCast_nonneg _
      · exact_mod_cast hg2
    rw [if_neg hno]
    simp only [Int.toNat_ofNat, hpend2, Bool.not_true, Bool.false_eq_true, if_false]
  refine ⟨?_, ?_, ?_, ?_, ?_, ?_⟩
  · rw [hst1]
  · rw [hst2]
  · rw [hget2]
  · rw [hdeliver]
  · rw [hdeliver]
    simp only [hget2]
    simp [List.count_append]
  · intro viw2 groups2
    unfold registerCapcodeToGroup
    by_cases h1 : (viw2 >>> 17) &&& 0x7F ≥ 17
    · rw [if_pos h1]
      exact ⟨fun _ => Or.inl h1, fun _ => rfl⟩
    · rw [if_neg h1]
      by_cases h2 : (groups2.getD ((viw2 >>> 17) &&& 0x7F) {}).capcodes.length ≥ 1000
      · rw [if_pos h2]
        exact ⟨fun _ => Or.inr h2, fun _ => rfl⟩
      · rw [if_neg h2]
        constructor
        · intro hx
          exact Bool.noConfusion hx
        · intro hx
          rcases hx with hx | hx
          · exact absurd hx h1
          · exact absurd hx h2

/-- Witness for group_register_no_dedup: registry of 17 empty entries,
group bit 5 (viw = 5 <<< 17), capcode 500. -/
theorem group_register_no_dedup_witness :
    let groups := List.replicate 17 ({} : GroupEntry)
    let g := ((5 <<< 17 : Nat) >>> 17) &&& 0x7F
    let st1 := registerCapcodeToGroup 500 (5 <<< 17) 2 100 groups
    let st2 := registerCapcodeToGroup 500 (5 <<< 17) 2 101 st1.2
    st1.1 = true ∧ st2.1 = true ∧
    (st2.2.getD g {}).capcodes = (groups.getD g {}).capcodes ++ [500, 500] ∧
    (processGroupMessage (g : Int) st2.2).1.is_valid = true ∧
    ((processGroupMessage (g : Int) st2.2).1.capcodes.count 500 =
      (groups.getD g {}).capcodes.count 500 + 2) ∧
    (∀ (viw' : Nat) (groups' : List GroupEntry),
      (registerCapcodeToGroup 500 viw' 2 100 groups').1 = false ↔
        ((viw' >>> 17) &&& 0x7F ≥ 17 ∨
          (groups'.getD ((viw' >>> 17) &&& 0x7F) {}).capcodes.length ≥ 1000)) :=
  group_register_no_dedup 500 (5 <<< 17) 2 100 2 101
    (List.replicate 17 ({} : GroupEntry)) (by decide) (by decide) (by decide)

/-! ### FIW handler theorem -/

/-- C3: at the 48th FIW bit the accumulated word is BCH-corrected; if
correction fails or the nibble-sum checksum of the 21 used bits is not
0xF the machine returns to SYNC1 and the registry is untouched;
otherwise cycle and frame are extracted from the corrected word, the
cleanup scan of checkAndCleanupMissedGroups runs on the registry, the
demodulator baud is set to the detected sync baud, and the machine moves
to SYNC2 with a reset SYNC2 counter. -/
theorem fiw_completion (fiw_raw sym sync_baud demod_baud s2c : Nat)
    (groups : List GroupEntry) :
    (∀ corrected,
      fixErrors ((fiw_raw >>> 1) ||| (if sym > 1 then 0x80000000 else 0)) = some corrected →
        (fiwChecksum corrected &&& 0xF ≠ 0xF →
          (handleFIWState 47 fiw_raw sym sync_baud groups demod_baud s2c).next_state =
              FlexSt.sync1 ∧
          (handleFIWState 47 fiw_raw sym sync_baud groups demod_baud s2c).groups = groups ∧
          (handleFIWState 47 fiw_raw sym sync_baud groups demod_baud s2c).demod_baud =
              demod_baud) ∧
        (fiwChecksum corrected &&& 0xF = 0xF →
          (handleFIWState 47 fiw_raw sym sync_baud groups demod_baud s2c).next_state =
              FlexSt.sync2 ∧
          (handleFIWState 47 fiw_raw sym sync_baud groups demod_baud s2c).groups =
            (checkAndCleanupMissedGroups ((corrected >>> 4) &&& 0xF)
              ((corrected >>> 8) &&& 0x7F) groups).2 ∧
          (handleFIWState 47 fiw_raw sym sync_baud groups demod_baud s2c).demod_baud =
              sync_baud ∧
          (handleFIWState 47 fiw_raw sym sync_baud groups demod_baud s2c).sync2_count = 0)) ∧
    (fixErrors ((fiw_raw >>> 1) ||| (if sym > 1 then 0x80000000 else 0)) = none →
      (handleFIWState 47 fiw_raw sym sync_baud groups demod_baud s2c).next_state =
          FlexSt.sync1 ∧
      (handleFIWState 47 fiw_raw sym sync_baud groups demod_baud s2c).groups = groups) := by
  constructor
  · intro corrected hfix
    constructor
    · intro hbad
      have hbadb : (fiwChecksum corrected &&& 0xF == 0xF) = false := by
        simpa using hbad
      unfold handleFIWState
      simp [hfix, hbadb]
    · intro hgood
      have hgoodb : (fiwChecksum corrected &&& 0xF == 0xF) = true := by
        simpa using hgood
      unfold handleFIWState
      simp [hfix, hgoodb]
  · intro hfix
    unfold handleFIWState
    simp [hfix]

/-- Witness for fiw_completion: an all-zero FIW accumulator decodes to
zero, whose checksum 0 is not 0xF, so the machine returns to SYNC1. -/
theorem fiw_completion_witness :
    fixErrors ((0 >>> 1) ||| (if (0 : Nat) > 1 then 0x80000000 else 0)) = some 0 ∧
    fiwChecksum 0 &&& 0xF ≠ 0xF ∧
    (handleFIWState 47 0 0 3200 [] 1600 9).next_state = FlexSt.sync1 ∧
    (handleFIWState 47 0 0 3200 [] 1600 9).groups = [] := by
  have hfix : fixErrors ((0 >>> 1) ||| (if (0 : Nat) > 1 then 0x80000000 else 0)) = some 0 := by
    decide
  have h := (fiw_completion 0 0 3200 1600 9 []).1 0 hfix
  have hbad : fiwChecksum 0 &&& 0xF ≠ 0xF := by decide
  obtain ⟨h1, h2, _⟩ := h.1 hbad
  exact ⟨hfix, hbad, h1, h2⟩

/-! ### Synchronizer: unknown sync codes -/

/-- C4: when a 64-bit pattern is accepted in SYNC1 but the sync code is
within Hamming distance 3 of no FLEX_MODES entry, decodeSyncMode
returns false with baud_rate = levels = 0 (the 1600/2 default is
commented out in the source) and handleSync1State does NOT advance to
FIW: the sync is discarded and the decoder stays in SYNC1.  Shown at
the accepted buffer with codehigh 0xFFFF, a code at distance at least 4
from every table entry. -/
theorem sync_unknown_code_discards :
    (∀ m ∈ flexModes, countBitDifferences m.sync_code 0xFFFF ≥ 4) ∧
    syncProcessSymbol ((0xFFFF000000000000 ||| (0xA6C6AAAA <<< 16)) >>> 1) false 2 =
      ((0xFFFF000000000000 ||| (0xA6C6AAAA <<< 16)), 0xFFFF, false) ∧
    decodeSyncMode false 0xFFFF = (false, { sync_code := 0xFFFF, polarity := false }) ∧
    (handleSync1StateE
        ({ state := FlexSt.sync1
           sync_buffer := (0xFFFF000000000000 ||| (0xA6C6AAAA <<< 16)) >>> 1 } : DecoderE)
        2).state = FlexSt.sync1 ∧
    (handleSync1StateE
        ({ state := FlexSt.sync1
           sync_buffer := (0xFFFF000000000000 ||| (0xA6C6AAAA <<< 16)) >>> 1 } : DecoderE)
        2).sync_info.baud_rate = 0 ∧
    (handleSync1StateE
        ({ state := FlexSt.sync1
           sync_buffer := (0xFFFF000000000000 ||| (0xA6C6AAAA <<< 16)) >>> 1 } : DecoderE)
        2).sync_info.levels = 0 := by
  refine ⟨by decide, by decide, by decide, by decide, by decide, by decide⟩

/-! ### SYNC2 / DATA duration -/

/-- C5: processSingleSample forces the demodulator baud to 1600 before
every symbol, so handleSync2State counts to 1600 * 25 / 1000 = 40
symbols and handleDataState to 1600 * 1760 / 1000 = 2816 symbols even
after a 3200-baud sync (0x7B18): from a SYNC2 state carrying the
decoded 3200 baud, the pipeline enters DATA at the 40th symbol and is
still in SYNC2 at the 80th that the decoded rate would demand; DATA
ends at symbol 2816, not 5632. -/
theorem sync2_data_durations_forced_1600 :
    (3200 * 25 / 1000 = 80 ∧ 1600 * 25 / 1000 = 40) ∧
    (processSymbolPipeline
      ({ state := FlexSt.sync2, demod_baud := 3200
         sync_info := { sync_code := 0x7B18, baud_rate := 3200, levels := 2 }
         sync2_count := 39 } : DecoderE) 3).state = FlexSt.data ∧
    (processSymbolPipeline
      ({ state := FlexSt.sync2, demod_baud := 3200
         sync_info := { sync_code := 0x7B18, baud_rate := 3200, levels := 2 }
         sync2_count := 79 } : DecoderE) 3).state = FlexSt.sync2 ∧
    (3200 * 1760 / 1000 = 5632 ∧ 1600 * 1760 / 1000 = 2816) ∧
    (processSymbolPipeline
      ({ state := FlexSt.data, demod_baud := 3200
         sync_info := { sync_code := 0x7B18, baud_rate := 3200, levels := 2 }
         data_count := 2815 } : DecoderE) 3).state = FlexSt.sync1 ∧
    (processSymbolPipeline
      ({ state := FlexSt.data, demod_baud := 3200
         sync_info := { sync_code := 0x7B18, baud_rate := 3200, levels := 2 }
         data_count := 5631 } : DecoderE) 3).state = FlexSt.data := by
  refine ⟨by decide, by decide, by decide, by decide, by decide, by decide⟩

/-! ### Data collector: idle counting -/

/-- C6: at a word boundary ((data_bit_counter & 0xFF) = 0xFF) the idle
counters that are incremented belong to the pair of phases NOT written
by the current symbol: updatePhaseBuffers flips phase_toggle before
checkForIdlePatterns reads it.  At 1600 bps the symbol is written to
phases A/B (toggle goes false to true) with the A word idle (zero), yet
C and D get the idle credit and A and B stay at zero; at 3200 bps with
the toggle set the symbol is written to C/D, yet A and B get the
credit. -/
theorem idle_count_wrong_phase_pair :
    (collectorProcessSymbol
        ({ data_bit_counter := 255, baud_rate := 1600, fsk_levels := 2 } : CollectorE)
        0 2).2.phase_a.idle_count = 0 ∧
    (collectorProcessSymbol
        ({ data_bit_counter := 255, baud_rate := 1600, fsk_levels := 2 } : CollectorE)
        0 2).2.phase_b.idle_count = 0 ∧
    (collectorProcessSymbol
        ({ data_bit_counter := 255, baud_rate := 1600, fsk_levels := 2 } : CollectorE)
        0 2).2.phase_c.idle_count = 1 ∧
    (collectorProcessSymbol
        ({ data_bit_counter := 255, baud_rate := 1600, fsk_levels := 2 } : CollectorE)
        0 2).2.phase_d.idle_count = 1 ∧
    (collectorProcessSymbol
        ({ data_bit_counter := 255, baud_rate := 1600, fsk_levels := 2 } : CollectorE)
        0 2).2.phase_toggle = true ∧
    isIdlePattern ((collectorProcessSymbol
        ({ data_bit_counter := 255, baud_rate := 1600, fsk_levels := 2 } : CollectorE)
        0 2).2.phase_a.buffer.getD 7 0) = true ∧
    (collectorProcessSymbol
        ({ data_bit_counter := 255, baud_rate := 3200, fsk_levels := 2
           phase_toggle := true } : CollectorE) 0 2).2.phase_c.idle_count = 0 ∧
    (collectorProcessSymbol
        ({ data_bit_counter := 255, baud_rate := 3200, fsk_levels := 2
           phase_toggle := true } : CollectorE) 0 2).2.phase_d.idle_count = 0 ∧
    (collectorProcessSymbol
        ({ data_bit_counter := 255, baud_rate := 3200, fsk_levels := 2
           phase_toggle := true } : CollectorE) 0 2).2.phase_a.idle_count = 1 ∧
    (collectorProcessSymbol
        ({ data_bit_counter := 255, baud_rate := 3200, fsk_levels := 2
           phase_toggle := true } : CollectorE) 0 2).2.phase_b.idle_count = 1 := by
  refine ⟨by decide, by decide, by decide, by decide, by decide, by decide, by decide,
    by decide, by decide, by decide⟩

/-! ### Numeric parser: the length field is lost -/

/-- C7: NumericParser masks w1 to 7 bits before extracting the word
count, so w2 = ((w1 & 0x7F) >> 7) & 0x07 is always 0 and only the
header word is walked, regardless of the length encoded in the VIW.  On
a payload carrying BCD digits 1,2,3,4,5 after the 2-bit header skip
(digit 5 spanning into the second word), the parser emits "1234"
instead of the "12345" of the specification. -/
theorem numeric_length_field_lost :
    (∀ vw : Nat, (((vw >>> 7) &&& 0x7F) >>> 7) &&& 0x07 = 0) ∧
    (numericParse
      ({ mtype := 3, phase_data := [0, 0, 16896, 0, 1379460, 0x199998]
         phase_data_size := 6, vector_word_index := 2 } : ParseInputE)).success = true ∧
    (numericParse
      ({ mtype := 3, phase_data := [0, 0, 16896, 0, 1379460, 0x199998]
         phase_data_size := 6, vector_word_index := 2 } : ParseInputE)).content = "1234" := by
  refine ⟨?_, by decide, by decide⟩
  intro vw
  have h1 : (vw >>> 7) &&& 0x7F ≤ 0x7F := Nat.and_le_right
  have h2 : ((vw >>> 7) &&& 0x7F) >>> 7 = 0 := by
    rw [Nat.shiftRight_eq_div_pow]
    exact Nat.div_eq_of_lt (by omega)
  rw [h2]
  rfl

/-! ### Alphanumeric parser: truncation bound -/

theorem addCharacterSafe_length (ch : Nat) (b : String) (m : Nat) :
    (addCharacterSafe ch b m).length ≤ b.length + 2 := by
  have ht : ("\\t" : String).length = 2 := rfl
  have hn : ("\\n" : String).length = 2 := rfl
  have hr : ("\\r" : String).length = 2 := rfl
  have hp : ("%%" : String).length = 2 := rfl
  unfold addCharacterSafe
  split_ifs <;> simp [String.length_append, String.length_push, ht, hn, hr, hp]

theorem alnLoop_length (pd : List Nat) (mws frag : Nat) :
    ∀ (k i : Nat) (content : String), content.length ≤ 501 →
      (alnLoop pd mws frag k i content).1.length ≤ 507 := by
  intro k
  induction k with
  | zero =>
    intro i c hc
    exact Nat.le_trans hc (by omega)
  | succ k ih =>
    intro i c hc
    have key : ∀ c3 : String, c3.length ≤ c.length + 6 →
        (if c3.length ≥ 512 - 10 then
            (c3, "Message length exceeds maximum allowed size")
          else alnLoop pd mws frag k (i + 1) c3).1.length ≤ 507 := by
      intro c3 h3
      by_cases hbr : c3.length ≥ 512 - 10
      · rw [if_pos hbr]
        show c3.length ≤ 507
        omega
      · rw [if_neg hbr]
        exact ih (i + 1) c3 (by omega)
    have h1 : (if i > 0 || frag != 3 then
        addCharacterSafe (pd.getD (mws + i) 0 &&& 0x7F) c 512 else c).length ≤
        c.length + 2 := by
      split_ifs
      · exact addCharacterSafe_length _ _ _
      · omega
    have h2 := addCharacterSafe_length ((pd.getD (mws + i) 0 >>> 7) &&& 0x7F)
      (if i > 0 || frag != 3 then
        addCharacterSafe (pd.getD (mws + i) 0 &&& 0x7F) c 512 else c) 512
    have h3 := addCharacterSafe_length ((pd.getD (mws + i) 0 >>> 14) &&& 0x7F)
      (addCharacterSafe ((pd.getD (mws + i) 0 >>> 7) &&& 0x7F)
        (if i > 0 || frag != 3 then
          addCharacterSafe (pd.getD (mws + i) 0 &&& 0x7F) c 512 else c) 512) 512
    exact key (addCharacterSafe ((pd.getD (mws + i) 0 >>> 14) &&& 0x7F)
      (addCharacterSafe ((pd.getD (mws + i) 0 >>> 7) &&& 0x7F)
        (if i > 0 || frag != 3 then
          addCharacterSafe (pd.getD (mws + i) 0 &&& 0x7F) c 512 else c) 512) 512)
      (by omega)

/-- C8 (amended): for every input, AlphanumericParser caps the emitted
content strictly below MAX_ALN = 512: the word loop breaks once the
content reaches 502 = MAX_ALN - 10 characters, so at most 507
characters (6 more from the final word) are ever emitted -- not exactly
512 as the specification states; the message is still emitted
(success) whenever the input passes validation. -/
theorem aln_truncation_bound (input : ParseInputE) :
    (alphanumericParse input).content.length ≤ 507 ∧
    (input.phase_data_size ≠ 0 → (input.mtype = 5 ∨ input.mtype = 0) →
      input.message_word_start + input.message_length ≤ input.phase_data_size →
      (alphanumericParse input).success = true) := by
  constructor
  · unfold alphanumericParse
    split_ifs <;>
      first
        | decide
        | (dsimp only
           exact alnLoop_length input.phase_data input.message_word_start
             input.fragment_number input.message_length 0 "" (by decide))
  · intro h0 hty hb
    unfold alphanumericParse
    have hb0 : (input.phase_data_size == 0) = false := by
      simpa using h0
    have hty2 : (input.mtype == 5 || input.mtype == 0) = true := by
      rcases hty with h | h <;> simp [h]
    have hb2 : ¬(input.message_word_start + input.message_length > input.phase_data_size) := by
      omega
    rw [if_neg (by simp [hb0]), if_neg (by simp [hty2]), if_neg hb2]

set_option maxHeartbeats 4000000 in
/-- Counterexample to C8 as stated: 180 payload words of three
printable characters each (escaped length 540 > 512) produce content of
length 504, not exactly 512; the message is still emitted. -/
theorem aln_truncation_counterexample :
    180 * 3 = 540 ∧
    (alphanumericParse
      ({ mtype := 5, phase_data := 0 :: List.replicate 180 1073345
         phase_data_size := 181, message_word_start := 1
         message_length := 180 } : ParseInputE)).success = true ∧
    (alphanumericParse
      ({ mtype := 5, phase_data := 0 :: List.replicate 180 1073345
         phase_data_size := 181, message_word_start := 1
         message_length := 180 } : ParseInputE)).content.length = 504 := by
  refine ⟨rfl, by decide, by decide⟩

/-- Witness for aln_truncation_bound at the over-long input. -/
theorem aln_truncation_bound_witness :
    (alphanumericParse
      ({ mtype := 5, phase_data := 0 :: List.replicate 180 1073345
         phase_data_size := 181, message_word_start := 1
         message_length := 180 } : ParseInputE)).content.length ≤ 507 ∧
    (alphanumericParse
      ({ mtype := 5, phase_data := 0 :: List.replicate 180 1073345
         phase_data_size := 181, message_word_start := 1
         message_length := 180 } : ParseInputE)).success = true := by
  have h := aln_truncation_bound
    ({ mtype := 5, phase_data := 0 :: List.replicate 180 1073345
       phase_data_size := 181, message_word_start := 1
       message_length := 180 } : ParseInputE)
  exact ⟨h.1, h.2 (by decide) (Or.inl rfl) (by decide)⟩

/-! ### Frame processor: BIW structural rejection -/

/-- C9: for a phase whose corrected word 0 is neither zero nor all-ones
(21-bit mask), the phase is abandoned -- no AIW/VIW iteration, no
messages, registry untouched -- whenever vector_offset <=
address_offset, where address_offset = ((biw >> 8) & 3) + 1 and
vector_offset = (biw >> 10) & 0x3F; when vector_offset >
address_offset the BIW validates and the AIW loop runs. -/
theorem biw_structural_rejection (phase_data : List Nat) (cyc frm : Nat)
    (groups : List GroupEntry)
    (hne : phase_data.getD 0 0 ≠ 0)
    (hnf : phase_data.getD 0 0 &&& 0x1FFFFF ≠ 0x1FFFFF) :
    (((phase_data.getD 0 0 >>> 10) &&& 0x3F) ≤ ((phase_data.getD 0 0 >>> 8) &&& 0x3) + 1 →
      processCorrectedPhase phase_data cyc frm groups = ([], groups)) ∧
    (((phase_data.getD 0 0 >>> 10) &&& 0x3F) > ((phase_data.getD 0 0 >>> 8) &&& 0x3) + 1 →
      biwIsValid (extractBlockInfoWord phase_data) = true) := by
  have hempty : phase_data.isEmpty = false := by
    cases phase_data with
    | nil => exact absurd rfl hne
    | cons a l => rfl
  have hb1 : (phase_data.getD 0 0 == 0) = false := by
    simpa using hne
  have hb2 : (phase_data.getD 0 0 &&& 0x1FFFFF == 0x1FFFFF) = false := by
    simpa using hnf
  have hcond : (phase_data.getD 0 0 == 0 ||
      (phase_data.getD 0 0 &&& 0x1FFFFF == 0x1FFFFF)) = false := by
    rw [hb1, hb2]
    rfl
  constructor
  · intro hle
    have hbiw : biwIsValid (extractBlockInfoWord phase_data) = false := by
      unfold extractBlockInfoWord
      rw [hempty]
      simp only [Bool.false_eq_true, if_false, hcond]
      by_cases hlt : (phase_data.getD 0 0 >>> 10) &&& 0x3F <
          ((phase_data.getD 0 0 >>> 8) &&& 0x3) + 1
      · rw [if_pos hlt]
        rfl
      · rw [if_neg hlt]
        have heq : (phase_data.getD 0 0 >>> 10) &&& 0x3F =
            ((phase_data.getD 0 0 >>> 8) &&& 0x3) + 1 := by omega
        unfold biwIsValid
        dsimp only
        rw [heq]
        simp
    unfold processCorrectedPhase
    simp [hbiw]
  · intro hgt
    unfold extractBlockInfoWord
    rw [hempty]
    simp only [Bool.false_eq_true, if_false, hcond]
    rw [if_neg (by omega)]
    unfold biwIsValid
    dsimp only
    rw [decide_eq_true hgt,
      decide_eq_true (show ((phase_data.getD 0 0 >>> 10) &&& 0x3F) -
        (((phase_data.getD 0 0 >>> 8) &&& 0x3) + 1) > 0 by omega)]
    rfl

/-- Witness for biw_structural_rejection: BIW 1792 has vector_offset 1
and address_offset 4, so the phase yields no messages. -/
theorem biw_structural_rejection_witness :
    ((1792 >>> 10) &&& 0x3F ≤ ((1792 >>> 8) &&& 0x3) + 1) ∧
    processCorrectedPhase [1792] 0 0 [] = ([], []) :=
  ⟨by decide,
    (biw_structural_rejection [1792] 0 0 [] (by decide) (by decide)).1 (by decide)⟩
